import Mathlib

/-!
go-elo: the rating strategies, the calculator and the match session.

A shallow embedding of `strategy.go`, `calculator.go` and `match.go`.

Numbers.

The program computes on `float64`.  The embedding uses `F64`: a value is a
real number, one of the two infinities, or NaN.  The special values follow the
IEEE-754 rules that Go's `+ - * /`, `math.Pow` and `math.Exp` document, and the
comparisons are those of Go.  On real values the arithmetic is an
idealisation: it is exact, where `float64` rounds every result, overflows to an
infinity (`math.Pow(10, 1200)`) and underflows to zero (`math.Pow(10, -1200)`),
and where `float64(int)` rounds above `2^53`.  The two zeros of `float64` are
identified, and a zero divisor is read as `+0`.

What the file proves is chosen accordingly.  The theorems about the strategies
and the queries compare the code with reference formulas written with the same
`F64` operations, for all values, so they hold whatever the operations return
on real values.  The theorems about `Play`, `Calculate`, the setters and the
builder use comparisons and the flow of control only.  Signs, orders, bounds
and exact equalities of results computed on real values are not asserted: they
depend on rounding and range.  The exact arithmetic is used only to evaluate
the code at a few concrete inputs.

`math.Pow(10, y)` and `math.Exp(y)` are the real power and exponential on real
values, so the definitions that compute with them are not executable; the
session layer (`Match.Play` and the accessors) is translated statement by
statement.

State.

Go mutates a `*Match` and the two `Player` holders in place.  The embedding
passes the state explicitly: a `Match` value carries its two holders, and
`Match.Play` returns the match after the call.  The two holders are taken to
be distinct objects.
-/

noncomputable section

/-! ## Idealised float64 -/

/-- A `float64` value: a real number, `+Inf`, `-Inf` or `NaN`.  Every real
number is a value (no rounding, no largest value, one zero). -/
inductive F64 where
  | fin (x : ℝ)
  | pinf
  | ninf
  | nan

namespace F64

/-- Unary minus. -/
def neg : F64 → F64
  | fin x => fin (-x)
  | pinf => ninf
  | ninf => pinf
  | nan => nan

/-- Go `a + b`; exact on real values, where `float64` rounds the sum. -/
def add : F64 → F64 → F64
  | fin x, fin y => fin (x + y)
  | fin _, pinf => pinf
  | fin _, ninf => ninf
  | pinf, fin _ => pinf
  | pinf, pinf => pinf
  | ninf, fin _ => ninf
  | ninf, ninf => ninf
  | _, _ => nan

/-- Go `a - b`. -/
def sub (a b : F64) : F64 := add a (neg b)

/-- The infinity that has the sign of `x`; NaN when `x` is zero
(`0 * Inf` and `0 / 0`). -/
def infSign (x : ℝ) : F64 :=
  if 0 < x then pinf else if x < 0 then ninf else nan

/-- Go `a * b`; exact on real values, where `float64` rounds the product and
can overflow or underflow. -/
def mul : F64 → F64 → F64
  | fin x, fin y => fin (x * y)
  | fin x, pinf => infSign x
  | fin x, ninf => infSign (-x)
  | pinf, fin y => infSign y
  | ninf, fin y => infSign (-y)
  | pinf, pinf => pinf
  | pinf, ninf => ninf
  | ninf, pinf => ninf
  | ninf, ninf => pinf
  | _, _ => nan

/-- Go `a / b`.  A nonzero real divided by zero is an infinity, `0 / 0` is
NaN, a real divided by an infinity is zero, `Inf / Inf` is NaN.  Exact on real
values with a nonzero divisor, where `float64` rounds the quotient; the zero
divisor is `+0` (Go gives the opposite infinity for `-0`). -/
def div : F64 → F64 → F64
  | fin x, fin y => if y = 0 then infSign x else fin (x / y)
  | fin _, pinf => fin 0
  | fin _, ninf => fin 0
  | pinf, fin y => if y < 0 then ninf else pinf
  | ninf, fin y => if y < 0 then pinf else ninf
  | _, _ => nan

/-- Go `math.Pow(10, y)`: `Pow(10, +Inf) = +Inf`, `Pow(10, -Inf) = 0`,
`Pow(10, NaN) = NaN`.  On a real `y` it is the exact real power, where
`math.Pow` rounds and returns `+Inf` or 0 once `10^y` is out of range. -/
def pow10 : F64 → F64
  | fin y => fin ((10 : ℝ) ^ y)
  | pinf => pinf
  | ninf => fin 0
  | nan => nan

/-- Go `math.Exp(y)`: `Exp(+Inf) = +Inf`, `Exp(-Inf) = 0`, `Exp(NaN) = NaN`.
On a real `y` it is the exact real exponential, where `math.Exp` rounds and
returns `+Inf` or 0 once `exp y` is out of range. -/
def exp : F64 → F64
  | fin y => fin (Real.exp y)
  | pinf => pinf
  | ninf => fin 0
  | nan => nan

/-- Go `math.Abs(a)`. -/
def abs : F64 → F64
  | fin x => fin |x|
  | pinf => pinf
  | ninf => pinf
  | nan => nan

/-- Go `a < b`: false as soon as one side is NaN. -/
def lt : F64 → F64 → Bool
  | fin x, fin y => decide (x < y)
  | fin _, pinf => true
  | ninf, fin _ => true
  | ninf, pinf => true
  | _, _ => false

/-- Go `a > b`. -/
def gt (a b : F64) : Bool := lt b a

/-- Go `a == b`: NaN is equal to nothing, itself included. -/
def eq : F64 → F64 → Bool
  | fin x, fin y => decide (x = y)
  | pinf, pinf => true
  | ninf, ninf => true
  | _, _ => false

/-- Go `float64(n)` for an `int`; exact for every integer, where Go's `int` has
64 bits and the conversion rounds above `2^53`. -/
def ofInt (n : Int) : F64 := fin (n : ℝ)

/-- The value is a real number (neither an infinity nor NaN). -/
def isFinite : F64 → Prop
  | fin _ => True
  | _ => False

end F64

instance : Neg F64 := ⟨F64.neg⟩
instance : Add F64 := ⟨F64.add⟩
instance : Sub F64 := ⟨F64.sub⟩
instance : Mul F64 := ⟨F64.mul⟩
instance : Div F64 := ⟨F64.div⟩

/-! ## match.go: outcomes and results -/

/-- Go `type MatchOutcome int`. -/
abbrev MatchOutcome := Int

/-- Go `OutcomeDraw = MatchOutcome(0)`. -/
def OutcomeDraw : MatchOutcome := 0

/-- Go `OutcomePlayerOneWin = MatchOutcome(1)`. -/
def OutcomePlayerOneWin : MatchOutcome := 1

/-- Go `OutcomePlayerTwoWin = MatchOutcome(2)`. -/
def OutcomePlayerTwoWin : MatchOutcome := 2

/-- Go `type MatchResult struct`. -/
structure MatchResult where
  Outcome : MatchOutcome
  PlayerOneScore : Int
  PlayerTwoScore : Int

/-! ## calculator.go: the strategy input -/

/-- Go `type CalculatorInput struct`. -/
structure CalculatorInput where
  PlayerOne : F64
  PlayerTwo : F64
  Outcome : MatchOutcome
  PlayerOneScore : Int
  PlayerTwoScore : Int
  K : F64
  Deviation : F64
  ScoreWeight : F64

/-! ## strategy.go -/

/-- Go `type StrategyFunc func(input *CalculatorInput) (r1 float64, r2 float64)`. -/
abbrev StrategyFunc := CalculatorInput → F64 × F64

/-- Go `StrategyDefault`: elo from a win/loss/draw outcome.  The `switch` has
no default case, so any other outcome leaves `S1 = S2 = 0`. -/
def StrategyDefault (input : CalculatorInput) : F64 × F64 :=
  let R1 := F64.pow10 (input.PlayerOne / input.Deviation)
  let R2 := F64.pow10 (input.PlayerTwo / input.Deviation)
  let E1 := R1 / (R1 + R2)
  let E2 := R2 / (R1 + R2)
  let S : F64 × F64 :=
    if input.Outcome = OutcomePlayerOneWin then (F64.fin 1.0, F64.fin 0.0)
    else if input.Outcome = OutcomePlayerTwoWin then (F64.fin 0.0, F64.fin 1.0)
    else if input.Outcome = OutcomeDraw then (F64.fin 0.5, F64.fin 0.5)
    else (F64.fin 0, F64.fin 0)
  let NewP1 := input.PlayerOne + input.K * (S.1 - E1)
  let NewP2 := input.PlayerTwo + input.K * (S.2 - E2)
  (NewP1, NewP2)

/-- Go `determineWeightedSValues`: the weighted actual scores of the winner
(first component) and of the loser (second component). -/
def determineWeightedSValues (winnerScore loserScore winnerE loserE weight : F64) :
    F64 × F64 :=
  let D := winnerScore / (winnerScore + loserScore)
  let G := (F64.fin 1.0 - winnerE) * D
  let G := G * F64.exp ((F64.fin (-1) * weight) * winnerE)
  let S1 := G + winnerE
  let S2 := loserE - G
  (S1, S2)

/-- Go `StrategyScored`: elo weighted by the final score. -/
def StrategyScored (input : CalculatorInput) : F64 × F64 :=
  let R1 := F64.pow10 (input.PlayerOne / input.Deviation)
  let R2 := F64.pow10 (input.PlayerTwo / input.Deviation)
  let E1 := R1 / (R1 + R2)
  let E2 := R2 / (R1 + R2)
  let S : F64 × F64 :=
    if input.PlayerOneScore = 0 then (F64.fin 0, F64.fin 1)
    else if input.PlayerTwoScore = 0 then (F64.fin 1, F64.fin 0)
    else if input.PlayerOneScore > input.PlayerTwoScore then
      determineWeightedSValues (F64.ofInt input.PlayerOneScore)
        (F64.ofInt input.PlayerTwoScore) E1 E2 input.ScoreWeight
    else if input.PlayerOneScore < input.PlayerTwoScore then
      Prod.swap (determineWeightedSValues (F64.ofInt input.PlayerTwoScore)
        (F64.ofInt input.PlayerOneScore) E2 E1 input.ScoreWeight)
    else (F64.fin 0.5, F64.fin 0.5)
  let NewP1 := input.PlayerOne + input.K * (S.1 - E1)
  let NewP2 := input.PlayerTwo + input.K * (S.2 - E2)
  (NewP1, NewP2)

/-! ## calculator.go -/

/-- Go `type Calculator struct`. -/
structure Calculator where
  k : F64
  deviation : F64
  scoreWeight : F64
  ignoreDraws : Bool
  strategy : StrategyFunc

/-- Go `type CalculatorBuilder struct`. -/
structure CalculatorBuilder where
  c : Calculator

/-- Go `NewCalculatorBuilder`: K 32, deviation 400, the default strategy; the
fields not listed take Go's zero value. -/
def NewCalculatorBuilder : CalculatorBuilder :=
  { c := { k := F64.fin 32, deviation := F64.fin 400, scoreWeight := F64.fin 0,
           ignoreDraws := false, strategy := StrategyDefault } }

/-- Go `(*CalculatorBuilder).WithStrategy`. -/
def CalculatorBuilder.WithStrategy (b : CalculatorBuilder) (sf : StrategyFunc) :
    CalculatorBuilder :=
  { b with c := { b.c with strategy := sf } }

/-- Go `(*CalculatorBuilder).WithKValue`. -/
def CalculatorBuilder.WithKValue (b : CalculatorBuilder) (k : F64) : CalculatorBuilder :=
  { b with c := { b.c with k := k } }

/-- Go `(*CalculatorBuilder).WithDeviation`. -/
def CalculatorBuilder.WithDeviation (b : CalculatorBuilder) (d : F64) : CalculatorBuilder :=
  { b with c := { b.c with deviation := d } }

/-- Go `(*CalculatorBuilder).WithScoreWeight`. -/
def CalculatorBuilder.WithScoreWeight (b : CalculatorBuilder) (w : F64) :
    CalculatorBuilder :=
  if F64.lt w (F64.fin 0) || F64.gt w (F64.fin 1) then b
  else { b with c := { b.c with scoreWeight := w } }

/-- Go `(*CalculatorBuilder).WithIgnoreDraws`. -/
def CalculatorBuilder.WithIgnoreDraws (b : CalculatorBuilder) : CalculatorBuilder :=
  { b with c := { b.c with ignoreDraws := true } }

/-- Go `(*CalculatorBuilder).Build`: the calculator the builder holds, as it is
when `Build` is called. -/
def CalculatorBuilder.Build (b : CalculatorBuilder) : Calculator := b.c

/-- Go `(*Calculator).Calculate`. -/
def Calculator.Calculate (c : Calculator) (p1 p2 : F64) (result : MatchResult) :
    F64 × F64 :=
  if (result.Outcome == OutcomeDraw) && c.ignoreDraws &&
      (result.PlayerOneScore == result.PlayerTwoScore) then (p1, p2)
  else
    c.strategy
      { PlayerOne := p1
        PlayerTwo := p2
        PlayerOneScore := result.PlayerOneScore
        PlayerTwoScore := result.PlayerTwoScore
        Outcome := result.Outcome
        K := c.k
        Deviation := c.deviation
        ScoreWeight := c.scoreWeight }

/-! ## match.go -/

/-- The rating holder behind Go's `Player` interface (`GetElo` / `SetElo`), as
the repository's tests implement it: a record with one `elo` field. -/
structure Player where
  elo : F64

/-- Go `GetElo`. -/
def Player.GetElo (p : Player) : F64 := p.elo

/-- Go `SetElo`. -/
def Player.SetElo (_p : Player) (e : F64) : Player := { elo := e }

/-- Go `type Match struct`. -/
structure Match where
  PlayerOne : Player
  PlayerTwo : Player
  finished : Bool
  strategy : StrategyFunc
  k : F64
  deviation : F64
  scoreWeight : F64
  ignoreDraws : Bool

/-- Go `(*Calculator).NewMatch`; `new(Match)` leaves `finished` false. -/
def Calculator.NewMatch (c : Calculator) (p1 p2 : Player) : Match :=
  { PlayerOne := p1
    PlayerTwo := p2
    finished := false
    strategy := c.strategy
    k := c.k
    deviation := c.deviation
    scoreWeight := c.scoreWeight
    ignoreDraws := c.ignoreDraws }

/-- Go `type MatchOdds struct`. -/
structure MatchOdds where
  PlayerOneOdds : F64
  PlayerTwoOdds : F64

/-- Go `(*Match).SetStrategy`. -/
def Match.SetStrategy (m : Match) (sf : StrategyFunc) : Match :=
  { m with strategy := sf }

/-- Go `(*Match).SetKValue`. -/
def Match.SetKValue (m : Match) (k : F64) : Match :=
  if F64.lt k (F64.fin 0) then m else { m with k := k }

/-- Go `(*Match).GetKValue`. -/
def Match.GetKValue (m : Match) : F64 := m.k

/-- Go `(*Match).SetScoreWeight`. -/
def Match.SetScoreWeight (m : Match) (w : F64) : Match :=
  if F64.lt w (F64.fin 0) then m else { m with scoreWeight := w }

/-- Go `(*Match).GetScoreWeight`. -/
def Match.GetScoreWeight (m : Match) : F64 := m.scoreWeight

/-- Go `(*Match).SetDeviation`. -/
def Match.SetDeviation (m : Match) (d : F64) : Match :=
  if F64.lt d (F64.fin 0) then m else { m with deviation := d }

/-- Go `(*Match).GetDeviation`. -/
def Match.GetDeviation (m : Match) : F64 := m.deviation

/-- Go `(*Match).IgnoreDraws`. -/
def Match.IgnoreDraws (m : Match) (ignore : Bool) : Match :=
  { m with ignoreDraws := ignore }

/-- Go `(*Match).GetIgnoreDraws`. -/
def Match.GetIgnoreDraws (m : Match) : Bool := m.ignoreDraws

/-- Go `(Match).GetOdds`. -/
def Match.GetOdds (m : Match) : MatchOdds :=
  let R1 := F64.pow10 (m.PlayerOne.GetElo / m.deviation)
  let R2 := F64.pow10 (m.PlayerTwo.GetElo / m.deviation)
  let E1 := R1 / (R1 + R2)
  let E2 := R2 / (R1 + R2)
  { PlayerOneOdds := E1, PlayerTwoOdds := E2 }

/-- The early-return test of `Play` that does not look at `finished`:
the outcome is a draw, the match ignores draws and the two scores are equal. -/
def Match.drawIgnored (m : Match) (result : MatchResult) : Bool :=
  (result.Outcome == OutcomeDraw) && m.ignoreDraws &&
    (result.PlayerOneScore == result.PlayerTwoScore)

/-- Go `(*Match).Play`: the match (with its two holders) after the call. -/
def Match.Play (m : Match) (result : MatchResult) : Match :=
  if m.finished || m.drawIgnored result then m
  else
    let n := m.strategy
      { PlayerOne := m.PlayerOne.GetElo
        PlayerTwo := m.PlayerTwo.GetElo
        PlayerOneScore := result.PlayerOneScore
        PlayerTwoScore := result.PlayerTwoScore
        Outcome := result.Outcome
        Deviation := m.deviation
        ScoreWeight := m.scoreWeight
        K := m.k }
    { m with
      PlayerOne := m.PlayerOne.SetElo n.1
      PlayerTwo := m.PlayerTwo.SetElo n.2
      finished := true }

/-- Go `(Match).PlayerOneGain`; the input fields not listed are zero. -/
def Match.PlayerOneGain (m : Match) : F64 :=
  let n := m.strategy
    { PlayerOne := m.PlayerOne.GetElo
      PlayerTwo := m.PlayerTwo.GetElo
      Outcome := OutcomePlayerOneWin
      PlayerOneScore := 0
      PlayerTwoScore := 0
      K := m.k
      Deviation := m.deviation
      ScoreWeight := F64.fin 0 }
  n.1 - m.PlayerOne.GetElo

/-- Go `(Match).PlayerTwoGain`; the input fields not listed are zero. -/
def Match.PlayerTwoGain (m : Match) : F64 :=
  let n := m.strategy
    { PlayerOne := m.PlayerOne.GetElo
      PlayerTwo := m.PlayerTwo.GetElo
      Outcome := OutcomePlayerTwoWin
      PlayerOneScore := 0
      PlayerTwoScore := 0
      K := m.k
      Deviation := m.deviation
      ScoreWeight := F64.fin 0 }
  n.2 - m.PlayerTwo.GetElo

/-! ## Formulas over the real numbers

The values the code takes on real inputs in the exact arithmetic of `F64`.
They serve only to evaluate the code at concrete inputs. -/

/-- The expected score of a side rated `ra` against a side rated `rb`:
`10^(ra/d) / (10^(ra/d) + 10^(rb/d))`. -/
def expectedScore (ra rb d : ℝ) : ℝ :=
  (10 : ℝ) ^ (ra / d) / ((10 : ℝ) ^ (ra / d) + (10 : ℝ) ^ (rb / d))

/-- The actual score of player one for an outcome: 1 for a win, 0 for a loss,
0.5 for a draw. -/
def actualScoreOne (o : MatchOutcome) : ℝ :=
  if o = OutcomePlayerOneWin then 1 else if o = OutcomePlayerTwoWin then 0 else 1 / 2

/-- The actual score of player two for an outcome. -/
def actualScoreTwo (o : MatchOutcome) : ℝ :=
  if o = OutcomePlayerOneWin then 0 else if o = OutcomePlayerTwoWin then 1 else 1 / 2

/-- The surplus `G = (1 - E_w) * (score_w / (score_w + score_l)) * exp(-weight * E_w)`
of a winner with expected score `ew`. -/
def surplus (sw sl ew weight : ℝ) : ℝ :=
  (1 - ew) * (sw / (sw + sl)) * Real.exp (-weight * ew)

/-- The outcome is one of the three named constants. -/
def validOutcome (o : MatchOutcome) : Prop :=
  o = OutcomeDraw ∨ o = OutcomePlayerOneWin ∨ o = OutcomePlayerTwoWin

/-- The actual scores the specification assigns to a pair of scores, given the
expected scores `e1`, `e2` and the score weight: a zero score is a decisive
loss, equal scores are a draw, otherwise the higher score wins with surplus `G`. -/
def scoredActual (s1 s2 : Int) (e1 e2 weight : ℝ) : ℝ × ℝ :=
  if s1 = 0 then (0, 1)
  else if s2 = 0 then (1, 0)
  else if s1 > s2 then (e1 + surplus s1 s2 e1 weight, e2 - surplus s1 s2 e1 weight)
  else if s1 < s2 then (e1 - surplus s2 s1 e2 weight, e2 + surplus s2 s1 e2 weight)
  else (1 / 2, 1 / 2)

/-- The input of a strategy call whose ratings and tuning parameters are the
real numbers given. -/
def realInput (r1 r2 : ℝ) (o : MatchOutcome) (s1 s2 : Int) (K D w : ℝ) :
    CalculatorInput :=
  { PlayerOne := F64.fin r1
    PlayerTwo := F64.fin r2
    Outcome := o
    PlayerOneScore := s1
    PlayerTwoScore := s2
    K := F64.fin K
    Deviation := F64.fin D
    ScoreWeight := F64.fin w }

/-- The value is a real number of the interval `[0, 1]`. -/
def inUnitInterval : F64 → Prop
  | F64.fin x => 0 ≤ x ∧ x ≤ 1
  | _ => False

/-! ## Chains of builder calls -/

/-- One call on a `CalculatorBuilder`. -/
inductive BuilderCall where
  | withStrategy (sf : StrategyFunc)
  | withKValue (k : F64)
  | withDeviation (d : F64)
  | withScoreWeight (w : F64)
  | withIgnoreDraws

/-- The builder after one call. -/
def CalculatorBuilder.call (b : CalculatorBuilder) : BuilderCall → CalculatorBuilder
  | BuilderCall.withStrategy sf => b.WithStrategy sf
  | BuilderCall.withKValue k => b.WithKValue k
  | BuilderCall.withDeviation d => b.WithDeviation d
  | BuilderCall.withScoreWeight w => b.WithScoreWeight w
  | BuilderCall.withIgnoreDraws => b.WithIgnoreDraws

/-- The builder `NewCalculatorBuilder().call_1(...).call_2(...)...` after the
calls of the list, first call first. -/
def builderChain (calls : List BuilderCall) : CalculatorBuilder :=
  calls.foldl CalculatorBuilder.call NewCalculatorBuilder

/-- The last call of a chain for which `f` gives a value, and that value. -/
def lastSome (f : BuilderCall → Option F64) : List BuilderCall → Option F64
  | [] => none
  | c :: rest =>
    match lastSome f rest with
    | some v => some v
    | none => f c

/-- The argument of a `WithKValue` call. -/
def kValueArg : BuilderCall → Option F64
  | BuilderCall.withKValue k => some k
  | _ => none

/-- The argument of a `WithDeviation` call. -/
def deviationArg : BuilderCall → Option F64
  | BuilderCall.withDeviation d => some d
  | _ => none

/-- The argument of a `WithScoreWeight` call that the call accepts: one that
is neither `< 0` nor `> 1`. -/
def acceptedScoreWeightArg : BuilderCall → Option F64
  | BuilderCall.withScoreWeight w =>
    if F64.lt w (F64.fin 0) || F64.gt w (F64.fin 1) then none else some w
  | _ => none

/-- The call is `WithIgnoreDraws`. -/
def isIgnoreDrawsCall : BuilderCall → Bool
  | BuilderCall.withIgnoreDraws => true
  | _ => false

/-- The call passes a score weight that is NaN. -/
def passesNaNScoreWeight : BuilderCall → Prop
  | BuilderCall.withScoreWeight F64.nan => True
  | _ => False

/-! ## Reference formulas with the float64 operations

These follow the wording of the specification and of the claims, with the
operations of `F64` in place of real arithmetic, so that a comparison with the
code holds whatever the operations return on real values. -/

/-- The expected score of the side rated `rself` in a match between `r1` and
`r2` with deviation `d`: `10^(rself/d) / (10^(r1/d) + 10^(r2/d))`. -/
def expectedF64 (rself r1 r2 d : F64) : F64 :=
  F64.pow10 (rself / d) / (F64.pow10 (r1 / d) + F64.pow10 (r2 / d))

/-- The logistic form of the expected score: `1 / (1 + 10^((rother - rself)/d))`. -/
def logisticF64 (rself rother d : F64) : F64 :=
  F64.fin 1 / (F64.fin 1 + F64.pow10 ((rother - rself) / d))

/-- The actual scores of the two players for an outcome: 1 for the winner, 0
for the loser, 0.5 for each side of a draw. -/
def actualF64 (o : MatchOutcome) : F64 × F64 :=
  if o = OutcomePlayerOneWin then (F64.fin 1, F64.fin 0)
  else if o = OutcomePlayerTwoWin then (F64.fin 0, F64.fin 1)
  else (F64.fin 0.5, F64.fin 0.5)

/-- The Elo update `r_i + K * (S_i - E_i)` of both ratings, for actual scores
`S` and expected scores `E`. -/
def eloUpdate (r1 r2 K : F64) (S E : F64 × F64) : F64 × F64 :=
  (r1 + K * (S.1 - E.1), r2 + K * (S.2 - E.2))

/-- The surplus of a winner with expected score `ew`:
`G = (1 - E_w) * (score_w / (score_w + score_l)) * exp(-ScoreWeight * E_w)`. -/
def surplusF64 (scoreW scoreL : Int) (ew weight : F64) : F64 :=
  (F64.fin 1 - ew) * (F64.ofInt scoreW / (F64.ofInt scoreW + F64.ofInt scoreL)) *
    F64.exp (-weight * ew)

/-- The pair `(r_w + K * G, r_l - K * G)` in player-one/player-two order, for an
input whose scores are unequal: the winner is the side with the higher score
and `G` is its surplus. -/
def surplusUpdate (input : CalculatorInput) : F64 × F64 :=
  if input.PlayerOneScore > input.PlayerTwoScore then
    (input.PlayerOne + input.K * surplusF64 input.PlayerOneScore input.PlayerTwoScore
        (expectedF64 input.PlayerOne input.PlayerOne input.PlayerTwo input.Deviation)
        input.ScoreWeight,
     input.PlayerTwo - input.K * surplusF64 input.PlayerOneScore input.PlayerTwoScore
        (expectedF64 input.PlayerOne input.PlayerOne input.PlayerTwo input.Deviation)
        input.ScoreWeight)
  else
    (input.PlayerOne - input.K * surplusF64 input.PlayerTwoScore input.PlayerOneScore
        (expectedF64 input.PlayerTwo input.PlayerOne input.PlayerTwo input.Deviation)
        input.ScoreWeight,
     input.PlayerTwo + input.K * surplusF64 input.PlayerTwoScore input.PlayerOneScore
        (expectedF64 input.PlayerTwo input.PlayerOne input.PlayerTwo input.Deviation)
        input.ScoreWeight)

end

/-! ## Arithmetic of `F64` on real values -/

namespace F64

@[simp]
theorem fin_add (x y : ℝ) : fin x + fin y = fin (x + y) := rfl

@[simp]
theorem neg_fin (x : ℝ) : -fin x = fin (-x) := rfl

@[simp]
theorem fin_sub (x y : ℝ) : fin x - fin y = fin (x - y) := by
  show add (fin x) (neg (fin y)) = fin (x - y)
  simp [add, neg, sub_eq_add_neg]

@[simp]
theorem fin_mul (x y : ℝ) : fin x * fin y = fin (x * y) := rfl

theorem fin_div (x : ℝ) {y : ℝ} (hy : y ≠ 0) : fin x / fin y = fin (x / y) := by
  show div (fin x) (fin y) = fin (x / y)
  simp [div, hy]

@[simp]
theorem pow10_fin (y : ℝ) : pow10 (fin y) = fin ((10 : ℝ) ^ y) := rfl

@[simp]
theorem exp_fin (y : ℝ) : exp (fin y) = fin (Real.exp y) := rfl

@[simp]
theorem abs_fin (x : ℝ) : abs (fin x) = fin |x| := rfl

@[simp]
theorem eq_fin (x y : ℝ) : eq (fin x) (fin y) = decide (x = y) := rfl

@[simp]
theorem lt_fin (x y : ℝ) : lt (fin x) (fin y) = decide (x < y) := rfl

@[simp]
theorem isFinite_fin (x : ℝ) : isFinite (fin x) := trivial

@[simp]
theorem ofInt_eq (n : Int) : ofInt n = fin (n : ℝ) := rfl

end F64

/-! ## Evaluations: the strategies on real inputs, in exact arithmetic -/

theorem pow10_pos (x : ℝ) : 0 < (10 : ℝ) ^ x :=
  Real.rpow_pos_of_pos (by norm_num) x

theorem pow10_add_pos (x y : ℝ) : 0 < (10 : ℝ) ^ x + (10 : ℝ) ^ y :=
  add_pos (pow10_pos x) (pow10_pos y)

theorem expectedScore_add (ra rb d : ℝ) :
    expectedScore ra rb d + expectedScore rb ra d = 1 := by
  unfold expectedScore
  have h := pow10_add_pos (ra / d) (rb / d)
  rw [add_comm ((10 : ℝ) ^ (rb / d)) ((10 : ℝ) ^ (ra / d)), ← add_div]
  exact div_self (ne_of_gt h)

/-- What `StrategyDefault` returns on real inputs with a nonzero deviation and
one of the three outcomes. -/
theorem StrategyDefault_real (r1 r2 K D w : ℝ) (o : MatchOutcome) (s1 s2 : Int)
    (hD : D ≠ 0) (ho : validOutcome o) :
    StrategyDefault (realInput r1 r2 o s1 s2 K D w) =
      (F64.fin (r1 + K * (actualScoreOne o - expectedScore r1 r2 D)),
       F64.fin (r2 + K * (actualScoreTwo o - expectedScore r2 r1 D))) := by
  have hs : (10 : ℝ) ^ (r1 / D) + (10 : ℝ) ^ (r2 / D) ≠ 0 := ne_of_gt (pow10_add_pos _ _)
  unfold validOutcome OutcomeDraw OutcomePlayerOneWin OutcomePlayerTwoWin at ho
  rcases ho with h | h | h <;> subst h <;>
    simp [StrategyDefault, realInput, F64.fin_div, hD, hs, actualScoreOne, actualScoreTwo,
      expectedScore, OutcomeDraw, OutcomePlayerOneWin, OutcomePlayerTwoWin,
      add_comm ((10 : ℝ) ^ (r2 / D))] <;> norm_num

/-- What `determineWeightedSValues` returns on real arguments whose two scores
do not sum to zero. -/
theorem determineWeightedSValues_real (a b ew el w : ℝ) (hab : a + b ≠ 0) :
    determineWeightedSValues (F64.fin a) (F64.fin b) (F64.fin ew) (F64.fin el)
        (F64.fin w) =
      (F64.fin (ew + surplus a b ew w), F64.fin (el - surplus a b ew w)) := by
  simp [determineWeightedSValues, F64.fin_div, hab, surplus, add_comm]
  norm_num

/-- What `StrategyScored` returns on real inputs with a nonzero deviation and
non-negative scores. -/
theorem StrategyScored_real (r1 r2 K D w : ℝ) (o : MatchOutcome) (s1 s2 : Int)
    (hD : D ≠ 0) (h1 : 0 ≤ s1) (h2 : 0 ≤ s2) :
    StrategyScored (realInput r1 r2 o s1 s2 K D w) =
      (F64.fin (r1 + K * ((scoredActual s1 s2 (expectedScore r1 r2 D)
          (expectedScore r2 r1 D) w).1 - expectedScore r1 r2 D)),
       F64.fin (r2 + K * ((scoredActual s1 s2 (expectedScore r1 r2 D)
          (expectedScore r2 r1 D) w).2 - expectedScore r2 r1 D))) := by
  have hs : (10 : ℝ) ^ (r1 / D) + (10 : ℝ) ^ (r2 / D) ≠ 0 := ne_of_gt (pow10_add_pos _ _)
  have hE1 : F64.pow10 (F64.fin r1 / F64.fin D) /
      (F64.pow10 (F64.fin r1 / F64.fin D) + F64.pow10 (F64.fin r2 / F64.fin D)) =
      F64.fin (expectedScore r1 r2 D) := by
    simp [F64.fin_div, hD, hs, expectedScore]
  have hE2 : F64.pow10 (F64.fin r2 / F64.fin D) /
      (F64.pow10 (F64.fin r1 / F64.fin D) + F64.pow10 (F64.fin r2 / F64.fin D)) =
      F64.fin (expectedScore r2 r1 D) := by
    simp [F64.fin_div, hD, hs, expectedScore, add_comm ((10 : ℝ) ^ (r2 / D))]
  simp only [StrategyScored, realInput, hE1, hE2, scoredActual]
  by_cases c1 : s1 = 0
  · simp [c1]
  by_cases c2 : s2 = 0
  · simp [c1, c2]
  have p1 : (0 : ℝ) < (s1 : ℝ) := by
    have : 0 < s1 := lt_of_le_of_ne h1 (Ne.symm c1)
    exact_mod_cast this
  have p2 : (0 : ℝ) < (s2 : ℝ) := by
    have : 0 < s2 := lt_of_le_of_ne h2 (Ne.symm c2)
    exact_mod_cast this
  have h12 : (s1 : ℝ) + (s2 : ℝ) ≠ 0 := ne_of_gt (add_pos p1 p2)
  have h21 : (s2 : ℝ) + (s1 : ℝ) ≠ 0 := ne_of_gt (add_pos p2 p1)
  by_cases c3 : s1 > s2
  · simp [c1, c2, c3, determineWeightedSValues_real _ _ _ _ _ h12]
  by_cases c4 : s1 < s2
  · simp [c1, c2, c3, c4, determineWeightedSValues_real _ _ _ _ _ h21]
  · simp [c1, c2, c3, c4]
    norm_num

/-! ## A zero deviation

With ratings above zero and a deviation of zero both quotients `r / 0` are
`+Inf`, both powers are `+Inf`, and `Inf / Inf` is NaN: both new ratings are
NaN whatever the actual scores are. -/

theorem F64.sub_nan (a : F64) : a - F64.nan = F64.nan := by
  cases a <;> rfl

theorem F64.sub_nan_left (a : F64) : F64.nan - a = F64.nan := rfl

theorem F64.fin_mul_nan (x : ℝ) : F64.fin x * F64.nan = F64.nan := rfl

theorem F64.fin_add_nan (x : ℝ) : F64.fin x + F64.nan = F64.nan := rfl

theorem F64.fin_div_zero_of_pos {x : ℝ} (hx : 0 < x) : F64.fin x / F64.fin 0 = F64.pinf := by
  show F64.div (F64.fin x) (F64.fin 0) = F64.pinf
  simp [F64.div, F64.infSign, hx]

theorem expected_nan_zero_deviation {ra rb : ℝ} (ha : 0 < ra) (hb : 0 < rb) :
    F64.pow10 (F64.fin ra / F64.fin 0) /
      (F64.pow10 (F64.fin ra / F64.fin 0) + F64.pow10 (F64.fin rb / F64.fin 0)) = F64.nan := by
  rw [F64.fin_div_zero_of_pos ha, F64.fin_div_zero_of_pos hb]
  rfl

theorem expected_nan_zero_deviation_two {ra rb : ℝ} (ha : 0 < ra) (hb : 0 < rb) :
    F64.pow10 (F64.fin rb / F64.fin 0) /
      (F64.pow10 (F64.fin ra / F64.fin 0) + F64.pow10 (F64.fin rb / F64.fin 0)) = F64.nan := by
  rw [F64.fin_div_zero_of_pos ha, F64.fin_div_zero_of_pos hb]
  rfl

theorem StrategyDefault_zero_deviation (r1 r2 K w : ℝ) (o : MatchOutcome) (s1 s2 : Int)
    (h1 : 0 < r1) (h2 : 0 < r2) :
    StrategyDefault (realInput r1 r2 o s1 s2 K 0 w) = (F64.nan, F64.nan) := by
  simp only [StrategyDefault, realInput, expected_nan_zero_deviation h1 h2,
    expected_nan_zero_deviation_two h1 h2, F64.sub_nan, F64.fin_mul_nan, F64.fin_add_nan]

theorem StrategyScored_zero_deviation (r1 r2 K w : ℝ) (o : MatchOutcome) (s1 s2 : Int)
    (h1 : 0 < r1) (h2 : 0 < r2) :
    StrategyScored (realInput r1 r2 o s1 s2 K 0 w) = (F64.nan, F64.nan) := by
  simp only [StrategyScored, realInput, expected_nan_zero_deviation h1 h2,
    expected_nan_zero_deviation_two h1 h2, F64.sub_nan, F64.fin_mul_nan, F64.fin_add_nan]

theorem F64.fin_div_zero_of_neg {x : ℝ} (hx : x < 0) : F64.fin x / F64.fin 0 = F64.ninf := by
  show F64.div (F64.fin x) (F64.fin 0) = F64.ninf
  simp [F64.div, F64.infSign, hx, not_lt.mpr (le_of_lt hx)]

/-- With a zero deviation, player one rated above zero and player two below
zero, player one's expected score is `Inf / Inf`, NaN, and player two's is
`0 / Inf`, zero. -/
theorem expected_zero_deviation_mixed {ra rb : ℝ} (ha : 0 < ra) (hb : rb < 0) :
    F64.pow10 (F64.fin ra / F64.fin 0) /
        (F64.pow10 (F64.fin ra / F64.fin 0) + F64.pow10 (F64.fin rb / F64.fin 0)) = F64.nan ∧
    F64.pow10 (F64.fin rb / F64.fin 0) /
        (F64.pow10 (F64.fin ra / F64.fin 0) + F64.pow10 (F64.fin rb / F64.fin 0)) =
      F64.fin 0 := by
  rw [F64.fin_div_zero_of_pos ha, F64.fin_div_zero_of_neg hb]
  exact ⟨rfl, rfl⟩

/-! ## Claims about the two strategies -/

/-- C5: the zero-score guard.  For all ratings, `K`, deviation and score weight
(any `float64` values), `StrategyScored` with scores `(s, 0)`, `s > 0`, returns
exactly what `StrategyDefault` returns for `OutcomePlayerOneWin`, and with
scores `(0, s)` exactly what `StrategyDefault` returns for
`OutcomePlayerTwoWin`; the result does not depend on `s` or on the score
weight: another positive score `s2` and another score weight `w2` give the
same pair.  The fields `StrategyDefault` does not read (`t1 t2 w3`) and the
outcome given to `StrategyScored` are arbitrary. -/
theorem StrategyScored_zero_score (p1 p2 K D w w2 w3 : F64) (o : MatchOutcome)
    (s s2 t1 t2 : Int) (hs : 0 < s) (hs2 : 0 < s2) :
    StrategyScored ⟨p1, p2, o, s, 0, K, D, w⟩ =
      StrategyDefault ⟨p1, p2, OutcomePlayerOneWin, t1, t2, K, D, w3⟩ ∧
    StrategyScored ⟨p1, p2, o, 0, s, K, D, w⟩ =
      StrategyDefault ⟨p1, p2, OutcomePlayerTwoWin, t1, t2, K, D, w3⟩ ∧
    StrategyScored ⟨p1, p2, o, s, 0, K, D, w⟩ = StrategyScored ⟨p1, p2, o, s2, 0, K, D, w2⟩ ∧
    StrategyScored ⟨p1, p2, o, 0, s, K, D, w⟩ = StrategyScored ⟨p1, p2, o, 0, s2, K, D, w2⟩ := by
  have c : s ≠ 0 := ne_of_gt hs
  have c2 : s2 ≠ 0 := ne_of_gt hs2
  refine ⟨?_, ?_, ?_, ?_⟩
  · simp [StrategyScored, StrategyDefault, c, OutcomePlayerOneWin]
    norm_num
  · simp [StrategyScored, StrategyDefault, OutcomePlayerOneWin, OutcomePlayerTwoWin]
    norm_num
  · simp [StrategyScored, c, c2]
  · simp [StrategyScored]

/-- C5 at ratings 800 and 1300 with the scores 4 to 0 and 0 to 4, compared with
the scores 9 to 0 and 0 to 9 under another score weight. -/
theorem StrategyScored_zero_score_witness :
    StrategyScored ⟨F64.fin 800, F64.fin 1300, OutcomeDraw, 4, 0, F64.fin 60, F64.fin 400,
        F64.fin 0.5⟩ =
      StrategyDefault ⟨F64.fin 800, F64.fin 1300, OutcomePlayerOneWin, 0, 0, F64.fin 60,
        F64.fin 400, F64.fin 0⟩ ∧
    StrategyScored ⟨F64.fin 800, F64.fin 1300, OutcomeDraw, 0, 4, F64.fin 60, F64.fin 400,
        F64.fin 0.5⟩ =
      StrategyDefault ⟨F64.fin 800, F64.fin 1300, OutcomePlayerTwoWin, 0, 0, F64.fin 60,
        F64.fin 400, F64.fin 0⟩ ∧
    StrategyScored ⟨F64.fin 800, F64.fin 1300, OutcomeDraw, 4, 0, F64.fin 60, F64.fin 400,
        F64.fin 0.5⟩ =
      StrategyScored ⟨F64.fin 800, F64.fin 1300, OutcomeDraw, 9, 0, F64.fin 60, F64.fin 400,
        F64.fin 1⟩ ∧
    StrategyScored ⟨F64.fin 800, F64.fin 1300, OutcomeDraw, 0, 4, F64.fin 60, F64.fin 400,
        F64.fin 0.5⟩ =
      StrategyScored ⟨F64.fin 800, F64.fin 1300, OutcomeDraw, 0, 9, F64.fin 60, F64.fin 400,
        F64.fin 1⟩ :=
  StrategyScored_zero_score (F64.fin 800) (F64.fin 1300) (F64.fin 60) (F64.fin 400)
    (F64.fin 0.5) (F64.fin 1) (F64.fin 0) OutcomeDraw 4 9 0 0 (by decide) (by decide)

/-- C6: for all ratings, `K`, deviation and score weight (any `float64`
values), `StrategyScored` with two equal nonzero scores returns exactly what
`StrategyDefault` returns for `OutcomeDraw`. -/
theorem StrategyScored_equal_scores (p1 p2 K D w w2 : F64) (o : MatchOutcome)
    (s t1 t2 : Int) (hs : s ≠ 0) :
    StrategyScored ⟨p1, p2, o, s, s, K, D, w⟩ =
      StrategyDefault ⟨p1, p2, OutcomeDraw, t1, t2, K, D, w2⟩ := by
  simp [StrategyScored, StrategyDefault, hs, OutcomeDraw, OutcomePlayerOneWin,
    OutcomePlayerTwoWin]

/-- C6 at ratings 1600 and 1800 with the score 500 to 500. -/
theorem StrategyScored_equal_scores_witness :
    StrategyScored ⟨F64.fin 1600, F64.fin 1800, OutcomeDraw, 500, 500, F64.fin 32,
        F64.fin 400, F64.fin 0⟩ =
      StrategyDefault ⟨F64.fin 1600, F64.fin 1800, OutcomeDraw, 0, 0, F64.fin 32,
        F64.fin 400, F64.fin 0⟩ :=
  StrategyScored_equal_scores (F64.fin 1600) (F64.fin 1800) (F64.fin 32) (F64.fin 400)
    (F64.fin 0) (F64.fin 0) OutcomeDraw 500 0 0 (by decide)

/-! ## Claims about `Play` and `Calculate` -/

theorem Match.drawIgnored_eq_true (m : Match) (result : MatchResult) :
    m.drawIgnored result = true ↔
      (result.Outcome = OutcomeDraw ∧ m.ignoreDraws = true ∧
        result.PlayerOneScore = result.PlayerTwoScore) := by
  simp [Match.drawIgnored, and_assoc]

theorem Match.drawIgnored_eq_false (m : Match) (result : MatchResult)
    (h : ¬ (result.Outcome = OutcomeDraw ∧ m.ignoreDraws = true ∧
        result.PlayerOneScore = result.PlayerTwoScore)) :
    m.drawIgnored result = false := by
  rw [← Bool.not_eq_true, Match.drawIgnored_eq_true]
  exact h

/-- The match after a `Play` that reaches the strategy. -/
theorem Match.Play_open (m : Match) (result : MatchResult) (hf : m.finished = false)
    (hg : m.drawIgnored result = false) :
    m.Play result =
      { m with
        PlayerOne := ⟨(m.strategy ⟨m.PlayerOne.elo, m.PlayerTwo.elo, result.Outcome,
          result.PlayerOneScore, result.PlayerTwoScore, m.k, m.deviation, m.scoreWeight⟩).1⟩
        PlayerTwo := ⟨(m.strategy ⟨m.PlayerOne.elo, m.PlayerTwo.elo, result.Outcome,
          result.PlayerOneScore, result.PlayerTwoScore, m.k, m.deviation, m.scoreWeight⟩).2⟩
        finished := true } := by
  simp [Match.Play, hf, hg, Player.GetElo, Player.SetElo]

/-- A finished match is left as it is. -/
theorem Match.Play_finished (m : Match) (result : MatchResult) (hf : m.finished = true) :
    m.Play result = m := by
  simp [Match.Play, hf]

/-- A result caught by the ignore-draws test leaves the match as it is. -/
theorem Match.Play_ignored (m : Match) (result : MatchResult)
    (hg : m.drawIgnored result = true) : m.Play result = m := by
  simp [Match.Play, hg]

/-- C7: for every match that is not finished and every result the ignore-draws
guard does not catch, `Play` sets the two players' ratings to the pair the
match's current strategy returns for the players' ratings at the time of the
call, the result's outcome and scores and the match's current K, deviation and
score weight; it sets `finished` and leaves K, deviation, score weight,
`ignoreDraws` and the strategy unchanged. -/
theorem Match.Play_updates (m : Match) (result : MatchResult) (hf : m.finished = false)
    (hg : ¬ (result.Outcome = OutcomeDraw ∧ m.ignoreDraws = true ∧
        result.PlayerOneScore = result.PlayerTwoScore)) :
    ((m.Play result).PlayerOne.GetElo, (m.Play result).PlayerTwo.GetElo) =
      m.strategy
        { PlayerOne := m.PlayerOne.GetElo
          PlayerTwo := m.PlayerTwo.GetElo
          Outcome := result.Outcome
          PlayerOneScore := result.PlayerOneScore
          PlayerTwoScore := result.PlayerTwoScore
          K := m.GetKValue
          Deviation := m.GetDeviation
          ScoreWeight := m.GetScoreWeight } ∧
    (m.Play result).finished = true ∧
    (m.Play result).k = m.k ∧
    (m.Play result).deviation = m.deviation ∧
    (m.Play result).scoreWeight = m.scoreWeight ∧
    (m.Play result).ignoreDraws = m.ignoreDraws ∧
    (m.Play result).strategy = m.strategy := by
  rw [Match.Play_open m result hf (Match.drawIgnored_eq_false m result hg)]
  exact ⟨rfl, rfl, rfl, rfl, rfl, rfl, rfl⟩

/-- C7 on the match of `TestOverrides`: scored strategy, K 47, deviation 200,
score weight 0.5, draws ignored, ratings 1600 and 1800, scores 6 to 3. -/
theorem Match.Play_updates_witness :
    (((⟨⟨F64.fin 1600⟩, ⟨F64.fin 1800⟩, false, StrategyScored, F64.fin 47, F64.fin 200,
        F64.fin 0.5, true⟩ : Match).Play ⟨OutcomeDraw, 6, 3⟩).PlayerOne.GetElo,
     ((⟨⟨F64.fin 1600⟩, ⟨F64.fin 1800⟩, false, StrategyScored, F64.fin 47, F64.fin 200,
        F64.fin 0.5, true⟩ : Match).Play ⟨OutcomeDraw, 6, 3⟩).PlayerTwo.GetElo) =
      StrategyScored ⟨F64.fin 1600, F64.fin 1800, OutcomeDraw, 6, 3, F64.fin 47, F64.fin 200,
        F64.fin 0.5⟩ ∧
    ((⟨⟨F64.fin 1600⟩, ⟨F64.fin 1800⟩, false, StrategyScored, F64.fin 47, F64.fin 200,
        F64.fin 0.5, true⟩ : Match).Play ⟨OutcomeDraw, 6, 3⟩).finished = true :=
  have h := Match.Play_updates
    (⟨⟨F64.fin 1600⟩, ⟨F64.fin 1800⟩, false, StrategyScored, F64.fin 47, F64.fin 200,
      F64.fin 0.5, true⟩ : Match) ⟨OutcomeDraw, 6, 3⟩ rfl
    (fun h => absurd h.2.2 (by decide))
  ⟨h.1, h.2.1⟩

theorem Calculator.Calculate_ignored (c : Calculator) (p1 p2 : F64) (result : MatchResult)
    (hi : c.ignoreDraws = true) (ho : result.Outcome = OutcomeDraw)
    (hs : result.PlayerOneScore = result.PlayerTwoScore) :
    c.Calculate p1 p2 result = (p1, p2) := by
  simp [Calculator.Calculate, hi, ho, hs]

/-- C8: `Play` and `Calculate` agree.  For every calculator `c`, ratings `p1`
and `p2` (any `float64` values) and result, playing the result on the fresh
match `c.NewMatch` makes from holders of `p1` and `p2` leaves the holders with
exactly the pair `c.Calculate p1 p2 result`; when `c` ignores draws, the
outcome is a draw and the two scores are equal, `Calculate` returns `(p1, p2)`
and `Play` leaves the match, holders included, as it was. -/
theorem Calculator.Play_eq_Calculate (c : Calculator) (p1 p2 : F64) (result : MatchResult) :
    (((c.NewMatch ⟨p1⟩ ⟨p2⟩).Play result).PlayerOne.GetElo,
     ((c.NewMatch ⟨p1⟩ ⟨p2⟩).Play result).PlayerTwo.GetElo) = c.Calculate p1 p2 result ∧
    (c.ignoreDraws = true → result.Outcome = OutcomeDraw →
      result.PlayerOneScore = result.PlayerTwoScore →
      c.Calculate p1 p2 result = (p1, p2) ∧
      (c.NewMatch ⟨p1⟩ ⟨p2⟩).Play result = c.NewMatch ⟨p1⟩ ⟨p2⟩) := by
  constructor
  · by_cases hg : (c.NewMatch ⟨p1⟩ ⟨p2⟩).drawIgnored result = true
    · rw [Match.Play_ignored _ _ hg]
      have hg2 := (Match.drawIgnored_eq_true _ _).mp hg
      rw [Calculator.Calculate_ignored c p1 p2 result hg2.2.1 hg2.1 hg2.2.2]
      rfl
    · have hg1 : (c.NewMatch ⟨p1⟩ ⟨p2⟩).drawIgnored result = false := by
        simpa using hg
      rw [Match.Play_open _ _ rfl hg1]
      have hg2 : ((result.Outcome == OutcomeDraw) && c.ignoreDraws &&
          (result.PlayerOneScore == result.PlayerTwoScore)) = false := hg1
      simp only [Calculator.Calculate, hg2, Player.GetElo, Calculator.NewMatch]
      rfl
  · intro hi ho hs
    refine ⟨Calculator.Calculate_ignored c p1 p2 result hi ho hs, ?_⟩
    apply Match.Play_ignored
    rw [Match.drawIgnored_eq_true]
    exact ⟨ho, hi, hs⟩

/-- C8 on the calculator of the ignore-draw test: draws ignored, default
strategy, ratings 1200 and 1000, a draw with both scores left at zero. -/
theorem Calculator.Play_eq_Calculate_witness :
    NewCalculatorBuilder.WithIgnoreDraws.Build.Calculate (F64.fin 1200) (F64.fin 1000)
        ⟨OutcomeDraw, 0, 0⟩ = (F64.fin 1200, F64.fin 1000) ∧
    (NewCalculatorBuilder.WithIgnoreDraws.Build.NewMatch ⟨F64.fin 1200⟩ ⟨F64.fin 1000⟩).Play
        ⟨OutcomeDraw, 0, 0⟩ =
      NewCalculatorBuilder.WithIgnoreDraws.Build.NewMatch ⟨F64.fin 1200⟩ ⟨F64.fin 1000⟩ :=
  (Calculator.Play_eq_Calculate NewCalculatorBuilder.WithIgnoreDraws.Build (F64.fin 1200)
    (F64.fin 1000) ⟨OutcomeDraw, 0, 0⟩).2 rfl rfl rfl

/-- C9: once a match is finished, `Play` is a no-op.  For every finished match
and every result, `Play` returns the match unchanged (ratings, flag and
parameters); so for every open match, every result `a` the ignore-draws guard
does not catch (`Play a` runs the strategy and finishes the match) and every
result `b`, `Play a` followed by `Play b` leaves exactly what `Play a` leaves. -/
theorem Match.Play_once (m : Match) (a b : MatchResult) :
    (m.finished = true → m.Play b = m) ∧
    (m.finished = false →
      ¬ (a.Outcome = OutcomeDraw ∧ m.ignoreDraws = true ∧
          a.PlayerOneScore = a.PlayerTwoScore) →
      (m.Play a).Play b = m.Play a ∧
      ((m.Play a).Play b).PlayerOne.GetElo = (m.Play a).PlayerOne.GetElo ∧
      ((m.Play a).Play b).PlayerTwo.GetElo = (m.Play a).PlayerTwo.GetElo) := by
  constructor
  · exact Match.Play_finished m b
  · intro hf hg
    have h : (m.Play a).Play b = m.Play a := by
      apply Match.Play_finished
      rw [Match.Play_open m a hf (Match.drawIgnored_eq_false m a hg)]
    exact ⟨h, by rw [h], by rw [h]⟩

/-- C9 on the match of `TestFinishedMatch`: default calculator, ratings 1600
and 1800, player one wins, then a second result is played. -/
theorem Match.Play_once_witness :
    ((NewCalculatorBuilder.Build.NewMatch ⟨F64.fin 1600⟩ ⟨F64.fin 1800⟩).Play
        ⟨OutcomePlayerOneWin, 0, 0⟩).Play ⟨OutcomePlayerTwoWin, 0, 0⟩ =
      (NewCalculatorBuilder.Build.NewMatch ⟨F64.fin 1600⟩ ⟨F64.fin 1800⟩).Play
        ⟨OutcomePlayerOneWin, 0, 0⟩ ∧
    ((⟨⟨F64.fin 1⟩, ⟨F64.fin 2⟩, true, StrategyDefault, F64.fin 32, F64.fin 400, F64.fin 0,
        false⟩ : Match).Play ⟨OutcomePlayerOneWin, 0, 0⟩) =
      ⟨⟨F64.fin 1⟩, ⟨F64.fin 2⟩, true, StrategyDefault, F64.fin 32, F64.fin 400, F64.fin 0,
        false⟩ :=
  ⟨((Match.Play_once (NewCalculatorBuilder.Build.NewMatch ⟨F64.fin 1600⟩ ⟨F64.fin 1800⟩)
      ⟨OutcomePlayerOneWin, 0, 0⟩ ⟨OutcomePlayerTwoWin, 0, 0⟩).2 rfl
      (fun h => absurd h.1 (by decide))).1,
   (Match.Play_once ⟨⟨F64.fin 1⟩, ⟨F64.fin 2⟩, true, StrategyDefault, F64.fin 32, F64.fin 400,
      F64.fin 0, false⟩ ⟨OutcomePlayerOneWin, 0, 0⟩ ⟨OutcomePlayerOneWin, 0, 0⟩).1 rfl⟩

theorem expectedScore_self (r d : ℝ) : expectedScore r r d = 1 / 2 := by
  have h := expectedScore_add r r d
  linarith

/-- C10 (amended): for every match with `IgnoreDraws` set, whatever its
strategy and whether it is finished or not, `Play` with a result whose outcome
is `OutcomeDraw` and whose two scores are equal (both left at zero, or equal
and nonzero) leaves the match, both players' ratings included, exactly
unchanged. -/
theorem Match.Play_ignores_draw (m : Match) (result : MatchResult)
    (hi : m.ignoreDraws = true) (ho : result.Outcome = OutcomeDraw)
    (hs : result.PlayerOneScore = result.PlayerTwoScore) :
    m.Play result = m ∧
    (m.Play result).PlayerOne.GetElo = m.PlayerOne.GetElo ∧
    (m.Play result).PlayerTwo.GetElo = m.PlayerTwo.GetElo := by
  have h : m.Play result = m :=
    Match.Play_ignored m result ((Match.drawIgnored_eq_true m result).mpr ⟨ho, hi, hs⟩)
  exact ⟨h, by rw [h], by rw [h]⟩

/-- C10 on the two matches of `TestIgnoreDraw`: a draw outcome with the default
strategy and the score 500 to 500 with the scored strategy, ratings 1600 and
1800. -/
theorem Match.Play_ignores_draw_witness :
    ((NewCalculatorBuilder.WithIgnoreDraws.Build.NewMatch ⟨F64.fin 1600⟩ ⟨F64.fin 1800⟩).Play
        ⟨OutcomeDraw, 0, 0⟩).PlayerOne.GetElo = F64.fin 1600 ∧
    (((NewCalculatorBuilder.WithIgnoreDraws.WithStrategy StrategyScored).Build.NewMatch
        ⟨F64.fin 1600⟩ ⟨F64.fin 1800⟩).Play ⟨OutcomeDraw, 500, 500⟩).PlayerTwo.GetElo =
      F64.fin 1800 :=
  ⟨(Match.Play_ignores_draw
      (NewCalculatorBuilder.WithIgnoreDraws.Build.NewMatch ⟨F64.fin 1600⟩ ⟨F64.fin 1800⟩)
      ⟨OutcomeDraw, 0, 0⟩ rfl rfl rfl).2.1,
   (Match.Play_ignores_draw
      ((NewCalculatorBuilder.WithIgnoreDraws.WithStrategy StrategyScored).Build.NewMatch
        ⟨F64.fin 1600⟩ ⟨F64.fin 1800⟩)
      ⟨OutcomeDraw, 500, 500⟩ rfl rfl rfl).2.2⟩

/-- C10 as stated fails on both sides of its "or", with `IgnoreDraws` set and
ratings 1000 and 1000, K 32, deviation 400.  (a) Scored strategy, outcome
`OutcomeDraw` (the value the field has when only scores are given), scores 3
to 0: player one goes to 1016 and player two to 984.  (b) Default strategy,
equal nonzero scores 2 to 2 with outcome `OutcomePlayerOneWin`: player one goes
to 1016 and player two to 984. -/
theorem Match.Play_draw_or_equal_scores_changes_ratings :
    ((NewCalculatorBuilder.WithIgnoreDraws.WithStrategy StrategyScored).Build.NewMatch
        ⟨F64.fin 1000⟩ ⟨F64.fin 1000⟩).ignoreDraws = true ∧
    (((NewCalculatorBuilder.WithIgnoreDraws.WithStrategy StrategyScored).Build.NewMatch
        ⟨F64.fin 1000⟩ ⟨F64.fin 1000⟩).Play ⟨OutcomeDraw, 3, 0⟩).PlayerOne.GetElo =
      F64.fin 1016 ∧
    (((NewCalculatorBuilder.WithIgnoreDraws.WithStrategy StrategyScored).Build.NewMatch
        ⟨F64.fin 1000⟩ ⟨F64.fin 1000⟩).Play ⟨OutcomeDraw, 3, 0⟩).PlayerTwo.GetElo =
      F64.fin 984 ∧
    (NewCalculatorBuilder.WithIgnoreDraws.Build.NewMatch
        ⟨F64.fin 1000⟩ ⟨F64.fin 1000⟩).ignoreDraws = true ∧
    ((NewCalculatorBuilder.WithIgnoreDraws.Build.NewMatch
        ⟨F64.fin 1000⟩ ⟨F64.fin 1000⟩).Play ⟨OutcomePlayerOneWin, 2, 2⟩).PlayerOne.GetElo =
      F64.fin 1016 ∧
    ((NewCalculatorBuilder.WithIgnoreDraws.Build.NewMatch
        ⟨F64.fin 1000⟩ ⟨F64.fin 1000⟩).Play ⟨OutcomePlayerOneWin, 2, 2⟩).PlayerTwo.GetElo =
      F64.fin 984 ∧
    F64.fin 1016 ≠ F64.fin 1000 ∧ F64.fin 984 ≠ F64.fin 1000 := by
  have hS := StrategyScored_real 1000 1000 32 400 0 OutcomeDraw 3 0 (by norm_num)
    (by decide) (by decide)
  have hD := StrategyDefault_real 1000 1000 32 400 0 OutcomePlayerOneWin 2 2 (by norm_num)
    (Or.inr (Or.inl rfl))
  rw [expectedScore_self] at hS hD
  have v1 : (1000 : ℝ) + 32 * ((scoredActual 3 0 (1 / 2) (1 / 2) 0).1 - 1 / 2) = 1016 := by
    norm_num [scoredActual]
  have v2 : (1000 : ℝ) + 32 * ((scoredActual 3 0 (1 / 2) (1 / 2) 0).2 - 1 / 2) = 984 := by
    norm_num [scoredActual]
  have v3 : (1000 : ℝ) + 32 * (actualScoreOne OutcomePlayerOneWin - 1 / 2) = 1016 := by
    norm_num [actualScoreOne]
  have v4 : (1000 : ℝ) + 32 * (actualScoreTwo OutcomePlayerOneWin - 1 / 2) = 984 := by
    norm_num [actualScoreTwo]
  rw [v1, v2] at hS
  rw [v3, v4] at hD
  have gS : ((NewCalculatorBuilder.WithIgnoreDraws.WithStrategy StrategyScored).Build.NewMatch
      ⟨F64.fin 1000⟩ ⟨F64.fin 1000⟩).drawIgnored ⟨OutcomeDraw, 3, 0⟩ = false := by
    apply Match.drawIgnored_eq_false
    intro h
    exact absurd h.2.2 (by decide)
  have gD : (NewCalculatorBuilder.WithIgnoreDraws.Build.NewMatch
      ⟨F64.fin 1000⟩ ⟨F64.fin 1000⟩).drawIgnored ⟨OutcomePlayerOneWin, 2, 2⟩ = false := by
    apply Match.drawIgnored_eq_false
    intro h
    exact absurd h.1 (by decide)
  rw [Match.Play_open _ _ rfl gS, Match.Play_open _ _ rfl gD]
  refine ⟨rfl, ?_, ?_, rfl, ?_, ?_, ?_, ?_⟩
  · exact congrArg Prod.fst hS
  · exact congrArg Prod.snd hS
  · exact congrArg Prod.fst hD
  · exact congrArg Prod.snd hD
  · intro e
    have := F64.fin.inj e
    norm_num at this
  · intro e
    have := F64.fin.inj e
    norm_num at this

/-- C11: an ignored draw does not consume the match.  For every open match
with `IgnoreDraws` set, after `Play` with a result the guard catches (outcome
`OutcomeDraw` and equal scores) the match is still not finished and is the
match it was; a following `Play` with a result the guard does not catch gives
exactly the match, ratings included, that it would give as the first call: the
ratings are the pair the strategy returns for the ratings from before both
calls, and the match is then finished. -/
theorem Match.Play_after_ignored_draw (m : Match) (a b : MatchResult)
    (hf : m.finished = false) (hi : m.ignoreDraws = true)
    (ha : a.Outcome = OutcomeDraw) (hs : a.PlayerOneScore = a.PlayerTwoScore)
    (hb : ¬ (b.Outcome = OutcomeDraw ∧ b.PlayerOneScore = b.PlayerTwoScore)) :
    (m.Play a).finished = false ∧
    m.Play a = m ∧
    (m.Play a).Play b = m.Play b ∧
    (((m.Play a).Play b).PlayerOne.GetElo, ((m.Play a).Play b).PlayerTwo.GetElo) =
      m.strategy
        { PlayerOne := m.PlayerOne.GetElo
          PlayerTwo := m.PlayerTwo.GetElo
          Outcome := b.Outcome
          PlayerOneScore := b.PlayerOneScore
          PlayerTwoScore := b.PlayerTwoScore
          K := m.GetKValue
          Deviation := m.GetDeviation
          ScoreWeight := m.GetScoreWeight } ∧
    ((m.Play a).Play b).finished = true := by
  have h : m.Play a = m :=
    Match.Play_ignored m a ((Match.drawIgnored_eq_true m a).mpr ⟨ha, hi, hs⟩)
  have g : m.drawIgnored b = false :=
    Match.drawIgnored_eq_false m b (fun k => hb ⟨k.1, k.2.2⟩)
  rw [h, Match.Play_open m b hf g]
  exact ⟨hf, rfl, rfl, rfl, rfl⟩

/-- C11 on the ignore-draws match of the tests: ratings 1600 and 1800, a draw
is played and ignored, then player two wins. -/
theorem Match.Play_after_ignored_draw_witness :
    ((NewCalculatorBuilder.WithIgnoreDraws.Build.NewMatch ⟨F64.fin 1600⟩ ⟨F64.fin 1800⟩).Play
        ⟨OutcomeDraw, 0, 0⟩).finished = false ∧
    ((NewCalculatorBuilder.WithIgnoreDraws.Build.NewMatch ⟨F64.fin 1600⟩ ⟨F64.fin 1800⟩).Play
        ⟨OutcomeDraw, 0, 0⟩).Play ⟨OutcomePlayerTwoWin, 0, 0⟩ =
      (NewCalculatorBuilder.WithIgnoreDraws.Build.NewMatch ⟨F64.fin 1600⟩ ⟨F64.fin 1800⟩).Play
        ⟨OutcomePlayerTwoWin, 0, 0⟩ ∧
    (((NewCalculatorBuilder.WithIgnoreDraws.Build.NewMatch ⟨F64.fin 1600⟩ ⟨F64.fin 1800⟩).Play
        ⟨OutcomeDraw, 0, 0⟩).Play ⟨OutcomePlayerTwoWin, 0, 0⟩).finished = true :=
  have h := Match.Play_after_ignored_draw
    (NewCalculatorBuilder.WithIgnoreDraws.Build.NewMatch ⟨F64.fin 1600⟩ ⟨F64.fin 1800⟩)
    ⟨OutcomeDraw, 0, 0⟩ ⟨OutcomePlayerTwoWin, 0, 0⟩ rfl rfl rfl rfl
    (fun k => absurd k.1 (by decide))
  ⟨h.1, h.2.2.1, h.2.2.2.2⟩

/-! ## Claims about the setters and the builder -/

/-- C12: the match setters validate and ignore.  For every match and every
value `v`, when `v < 0` each of `SetKValue`, `SetDeviation` and `SetScoreWeight`
returns the match unchanged, so the getter keeps its value; when `v` is
accepted (`v < 0` is false) each setter makes its getter return `v` and changes
only its own field. -/
theorem Match.setters_validate (m : Match) (v : F64) :
    (F64.lt v (F64.fin 0) = true →
      m.SetKValue v = m ∧ m.SetDeviation v = m ∧ m.SetScoreWeight v = m ∧
      (m.SetKValue v).GetKValue = m.GetKValue ∧
      (m.SetDeviation v).GetDeviation = m.GetDeviation ∧
      (m.SetScoreWeight v).GetScoreWeight = m.GetScoreWeight) ∧
    (F64.lt v (F64.fin 0) = false →
      (m.SetKValue v).GetKValue = v ∧
      (m.SetDeviation v).GetDeviation = v ∧
      (m.SetScoreWeight v).GetScoreWeight = v ∧
      m.SetKValue v = { m with k := v } ∧
      m.SetDeviation v = { m with deviation := v } ∧
      m.SetScoreWeight v = { m with scoreWeight := v }) := by
  constructor
  · intro h
    simp [Match.SetKValue, Match.SetDeviation, Match.SetScoreWeight, h]
  · intro h
    simp [Match.SetKValue, Match.SetDeviation, Match.SetScoreWeight, Match.GetKValue,
      Match.GetDeviation, Match.GetScoreWeight, h]

theorem F64.lt_zero_of_neg {x : ℝ} (h : x < 0) : F64.lt (F64.fin x) (F64.fin 0) = true := by
  simp [h]

theorem F64.lt_zero_of_nonneg {x : ℝ} (h : 0 ≤ x) : F64.lt (F64.fin x) (F64.fin 0) = false := by
  simp [h]

/-- C12 on the values of `TestOverrides`: 47, 200 and 0.5 are accepted where
the claim names them, and -50 is rejected by `SetKValue`. -/
theorem Match.setters_validate_witness :
    ((NewCalculatorBuilder.Build.NewMatch ⟨F64.fin 1600⟩ ⟨F64.fin 1800⟩).SetKValue
        (F64.fin 47)).GetKValue = F64.fin 47 ∧
    ((NewCalculatorBuilder.Build.NewMatch ⟨F64.fin 1600⟩ ⟨F64.fin 1800⟩).SetDeviation
        (F64.fin 200)).GetDeviation = F64.fin 200 ∧
    ((NewCalculatorBuilder.Build.NewMatch ⟨F64.fin 1600⟩ ⟨F64.fin 1800⟩).SetScoreWeight
        (F64.fin 0.5)).GetScoreWeight = F64.fin 0.5 ∧
    ((NewCalculatorBuilder.Build.NewMatch ⟨F64.fin 1600⟩ ⟨F64.fin 1800⟩).SetKValue
        (F64.fin (-50))).GetKValue =
      (NewCalculatorBuilder.Build.NewMatch ⟨F64.fin 1600⟩ ⟨F64.fin 1800⟩).GetKValue :=
  ⟨((Match.setters_validate _ (F64.fin 47)).2
      (F64.lt_zero_of_nonneg (by norm_num))).1,
   ((Match.setters_validate _ (F64.fin 200)).2
      (F64.lt_zero_of_nonneg (by norm_num))).2.1,
   ((Match.setters_validate _ (F64.fin 0.5)).2
      (F64.lt_zero_of_nonneg (by norm_num))).2.2.1,
   ((Match.setters_validate _ (F64.fin (-50))).1
      (F64.lt_zero_of_neg (by norm_num))).2.2.2.1⟩

/-- C13 (amended): for every match and every real `w`, `SetScoreWeight(w)`
leaves the score weight at its previous value when `w` is negative (for example
-0.13) and sets it to `w` when `w` is not negative, whether `w` is in `[0, 1]`
or above 1. -/
theorem Match.SetScoreWeight_real (m : Match) (w : ℝ) :
    (w < 0 → m.SetScoreWeight (F64.fin w) = m ∧
      (m.SetScoreWeight (F64.fin w)).GetScoreWeight = m.GetScoreWeight) ∧
    (0 ≤ w → (m.SetScoreWeight (F64.fin w)).GetScoreWeight = F64.fin w) := by
  constructor
  · intro h
    simp [Match.SetScoreWeight, h]
  · intro h
    simp [Match.SetScoreWeight, Match.GetScoreWeight, not_lt.mpr h]

/-- C13 at the weights -0.13 (rejected) and 0.5 (accepted) of `TestOverrides`. -/
theorem Match.SetScoreWeight_real_witness :
    ((NewCalculatorBuilder.Build.NewMatch ⟨F64.fin 1600⟩ ⟨F64.fin 1800⟩).SetScoreWeight
        (F64.fin (-0.13))).GetScoreWeight =
      (NewCalculatorBuilder.Build.NewMatch ⟨F64.fin 1600⟩ ⟨F64.fin 1800⟩).GetScoreWeight ∧
    ((NewCalculatorBuilder.Build.NewMatch ⟨F64.fin 1600⟩ ⟨F64.fin 1800⟩).SetScoreWeight
        (F64.fin 0.5)).GetScoreWeight = F64.fin 0.5 :=
  ⟨((Match.SetScoreWeight_real _ (-0.13)).1 (by norm_num)).2,
   (Match.SetScoreWeight_real _ 0.5).2 (by norm_num)⟩

/-- C13 as stated fails at 1.5, which is outside `[0, 1]`: on a match whose
score weight was set to 0.5, `SetScoreWeight(1.5)` makes the score weight 1.5. -/
theorem Match.SetScoreWeight_accepts_above_one :
    ((NewCalculatorBuilder.Build.NewMatch ⟨F64.fin 1600⟩ ⟨F64.fin 1800⟩).SetScoreWeight
        (F64.fin 0.5)).GetScoreWeight = F64.fin 0.5 ∧
    (((NewCalculatorBuilder.Build.NewMatch ⟨F64.fin 1600⟩ ⟨F64.fin 1800⟩).SetScoreWeight
        (F64.fin 0.5)).SetScoreWeight (F64.fin 1.5)).GetScoreWeight = F64.fin 1.5 ∧
    F64.fin 1.5 ≠ F64.fin 0.5 := by
  refine ⟨?_, ?_, ?_⟩
  · simp [Match.SetScoreWeight, Match.GetScoreWeight]
    norm_num
  · simp [Match.SetScoreWeight, Match.GetScoreWeight]
    norm_num
  · intro e
    have := F64.fin.inj e
    norm_num at this

/-! ### Chains of builder calls -/

theorem CalculatorBuilder.call_k (b : CalculatorBuilder) (c : BuilderCall) :
    (b.call c).c.k = (kValueArg c).getD b.c.k := by
  cases c <;> simp [CalculatorBuilder.call, CalculatorBuilder.WithStrategy,
    CalculatorBuilder.WithKValue, CalculatorBuilder.WithDeviation,
    CalculatorBuilder.WithIgnoreDraws, kValueArg]
  simp only [CalculatorBuilder.WithScoreWeight]
  split_ifs <;> rfl

theorem CalculatorBuilder.call_deviation (b : CalculatorBuilder) (c : BuilderCall) :
    (b.call c).c.deviation = (deviationArg c).getD b.c.deviation := by
  cases c <;> simp [CalculatorBuilder.call, CalculatorBuilder.WithStrategy,
    CalculatorBuilder.WithKValue, CalculatorBuilder.WithDeviation,
    CalculatorBuilder.WithIgnoreDraws, deviationArg]
  simp only [CalculatorBuilder.WithScoreWeight]
  split_ifs <;> rfl

theorem CalculatorBuilder.call_scoreWeight (b : CalculatorBuilder) (c : BuilderCall) :
    (b.call c).c.scoreWeight = (acceptedScoreWeightArg c).getD b.c.scoreWeight := by
  cases c with
  | withScoreWeight w =>
    simp only [CalculatorBuilder.call, CalculatorBuilder.WithScoreWeight,
      acceptedScoreWeightArg]
    by_cases hg : (F64.lt w (F64.fin 0) || F64.gt w (F64.fin 1)) = true
    · rw [if_pos hg, if_pos hg]
      rfl
    · rw [if_neg hg, if_neg hg]
      rfl
  | withStrategy sf => rfl
  | withKValue k => rfl
  | withDeviation d => rfl
  | withIgnoreDraws => rfl

theorem CalculatorBuilder.call_ignoreDraws (b : CalculatorBuilder) (c : BuilderCall) :
    (b.call c).c.ignoreDraws = (b.c.ignoreDraws || isIgnoreDrawsCall c) := by
  cases c <;> simp [CalculatorBuilder.call, CalculatorBuilder.WithStrategy,
    CalculatorBuilder.WithKValue, CalculatorBuilder.WithDeviation,
    CalculatorBuilder.WithIgnoreDraws, isIgnoreDrawsCall]
  simp only [CalculatorBuilder.WithScoreWeight]
  split_ifs <;> rfl

/-- A field that each call either overwrites with `f c` or leaves alone holds,
after a chain, the value of the last call that overwrites it. -/
theorem foldl_call_lastSome (f : BuilderCall → Option F64) (field : CalculatorBuilder → F64)
    (hstep : ∀ b c, field (b.call c) = (f c).getD (field b))
    (calls : List BuilderCall) (b : CalculatorBuilder) :
    field (calls.foldl CalculatorBuilder.call b) = (lastSome f calls).getD (field b) := by
  induction calls generalizing b with
  | nil => rfl
  | cons c rest ih =>
    rw [List.foldl_cons, ih (b.call c), lastSome]
    cases h : lastSome f rest with
    | none => simp [hstep]
    | some v => simp

theorem foldl_call_ignoreDraws (calls : List BuilderCall) (b : CalculatorBuilder) :
    (calls.foldl CalculatorBuilder.call b).c.ignoreDraws =
      (b.c.ignoreDraws || calls.any isIgnoreDrawsCall) := by
  induction calls generalizing b with
  | nil => simp
  | cons c rest ih =>
    rw [List.foldl_cons, ih (b.call c), CalculatorBuilder.call_ignoreDraws, List.any_cons,
      Bool.or_assoc]

/-- A value the guard of `WithScoreWeight` lets through is a real number of
`[0, 1]`, unless it is NaN. -/
theorem inUnitInterval_of_accepted (w : F64) (hw : w ≠ F64.nan)
    (hg : (F64.lt w (F64.fin 0) || F64.gt w (F64.fin 1)) = false) : inUnitInterval w := by
  cases w with
  | fin x =>
    simp only [F64.gt, F64.lt_fin, Bool.or_eq_false_iff, decide_eq_false_iff_not, not_lt] at hg
    exact hg
  | pinf => exact absurd hg (by simp [F64.gt, F64.lt])
  | ninf => exact absurd hg (by simp [F64.gt, F64.lt])
  | nan => exact absurd rfl hw

/-- A value of `[0, 1]` passes the guard of `WithScoreWeight`. -/
theorem accepted_of_inUnitInterval (w : F64) (h : inUnitInterval w) :
    (F64.lt w (F64.fin 0) || F64.gt w (F64.fin 1)) = false := by
  cases w with
  | fin x =>
    simp only [F64.gt, F64.lt_fin, Bool.or_eq_false_iff, decide_eq_false_iff_not, not_lt]
    exact h
  | pinf => exact absurd h (by simp [inUnitInterval])
  | ninf => exact absurd h (by simp [inUnitInterval])
  | nan => exact absurd h (by simp [inUnitInterval])

theorem CalculatorBuilder.call_inUnitInterval (b : CalculatorBuilder) (c : BuilderCall)
    (hb : inUnitInterval b.c.scoreWeight) (hc : ¬ passesNaNScoreWeight c) :
    inUnitInterval (b.call c).c.scoreWeight := by
  cases c with
  | withScoreWeight w =>
    simp only [CalculatorBuilder.call, CalculatorBuilder.WithScoreWeight]
    by_cases hg : (F64.lt w (F64.fin 0) || F64.gt w (F64.fin 1)) = true
    · simpa [hg] using hb
    · have hg2 : (F64.lt w (F64.fin 0) || F64.gt w (F64.fin 1)) = false := by simpa using hg
      have hw : w ≠ F64.nan := by
        intro e
        subst e
        exact hc trivial
      simpa [hg2] using inUnitInterval_of_accepted w hw hg2
  | withStrategy sf => exact hb
  | withKValue k => exact hb
  | withDeviation d => exact hb
  | withIgnoreDraws => exact hb

theorem foldl_call_inUnitInterval (calls : List BuilderCall) (b : CalculatorBuilder)
    (hb : inUnitInterval b.c.scoreWeight) (hc : ∀ c ∈ calls, ¬ passesNaNScoreWeight c) :
    inUnitInterval (calls.foldl CalculatorBuilder.call b).c.scoreWeight := by
  induction calls generalizing b with
  | nil => exact hb
  | cons c rest ih =>
    rw [List.foldl_cons]
    exact ih (b.call c)
      (CalculatorBuilder.call_inUnitInterval b c hb (hc c (List.mem_cons_self c rest)))
      (fun d hd => hc d (List.mem_cons_of_mem c hd))

/-- C14 (amended): for every `w` other than NaN, `WithScoreWeight(w)` sets the
score weight to `w` if and only if `0 <= w <= 1`, and otherwise leaves the
builder unchanged; consequently every calculator produced by a chain of builder
calls that passes no NaN score weight has a score weight in `[0, 1]` (0 by
default), and `WithScoreWeight(0.33).WithScoreWeight(-2)` yields 0.33. -/
theorem CalculatorBuilder.WithScoreWeight_validates (b : CalculatorBuilder) (w : F64)
    (calls : List BuilderCall) (hw : w ≠ F64.nan)
    (hc : ∀ c ∈ calls, ¬ passesNaNScoreWeight c) :
    (inUnitInterval w →
      b.WithScoreWeight w = { b with c := { b.c with scoreWeight := w } } ∧
      (b.WithScoreWeight w).Build.scoreWeight = w) ∧
    (¬ inUnitInterval w → b.WithScoreWeight w = b) ∧
    inUnitInterval (builderChain calls).Build.scoreWeight ∧
    NewCalculatorBuilder.Build.scoreWeight = F64.fin 0 ∧
    ((NewCalculatorBuilder.WithScoreWeight (F64.fin 0.33)).WithScoreWeight
      (F64.fin (-2))).Build.scoreWeight = F64.fin 0.33 := by
  refine ⟨?_, ?_, ?_, rfl, ?_⟩
  · intro h
    have hg := accepted_of_inUnitInterval w h
    simp [CalculatorBuilder.WithScoreWeight, CalculatorBuilder.Build, hg]
  · intro h
    by_cases hg : (F64.lt w (F64.fin 0) || F64.gt w (F64.fin 1)) = true
    · simp only [CalculatorBuilder.WithScoreWeight, if_pos hg]
    · have hg2 : (F64.lt w (F64.fin 0) || F64.gt w (F64.fin 1)) = false := by simpa using hg
      exact absurd (inUnitInterval_of_accepted w hw hg2) h
  · apply foldl_call_inUnitInterval _ _ _ hc
    show (0 : ℝ) ≤ 0 ∧ (0 : ℝ) ≤ 1
    norm_num
  · have h1 : (F64.lt (F64.fin 0.33) (F64.fin 0) || F64.gt (F64.fin 0.33) (F64.fin 1)) = false := by
      apply accepted_of_inUnitInterval
      show (0 : ℝ) ≤ 0.33 ∧ (0.33 : ℝ) ≤ 1
      norm_num
    have h2 : (F64.lt (F64.fin (-2)) (F64.fin 0) || F64.gt (F64.fin (-2)) (F64.fin 1)) = true := by
      simp
    simp only [CalculatorBuilder.WithScoreWeight, h1, h2, CalculatorBuilder.Build]
    rfl

/-- C14 on the chain of `TestCalculateScored`: scored strategy, score weight
0.33, then score weight -2. -/
theorem CalculatorBuilder.WithScoreWeight_validates_witness :
    (NewCalculatorBuilder.WithScoreWeight (F64.fin 0.33)).Build.scoreWeight = F64.fin 0.33 ∧
    (NewCalculatorBuilder.WithScoreWeight (F64.fin 0.33)).WithScoreWeight (F64.fin (-2)) =
      NewCalculatorBuilder.WithScoreWeight (F64.fin 0.33) ∧
    inUnitInterval (builderChain [BuilderCall.withStrategy StrategyScored,
      BuilderCall.withScoreWeight (F64.fin 0.33),
      BuilderCall.withScoreWeight (F64.fin (-2))]).Build.scoreWeight :=
  have hnan : ∀ x : ℝ, F64.fin x ≠ F64.nan := fun _ e => F64.noConfusion e
  have hc : ∀ c ∈ [BuilderCall.withStrategy StrategyScored,
      BuilderCall.withScoreWeight (F64.fin 0.33),
      BuilderCall.withScoreWeight (F64.fin (-2))], ¬ passesNaNScoreWeight c := by
    intro c hmem
    simp only [List.mem_cons, List.mem_singleton, List.not_mem_nil, or_false] at hmem
    rcases hmem with e | e | e <;> subst e <;> exact fun k => k
  ⟨((CalculatorBuilder.WithScoreWeight_validates NewCalculatorBuilder (F64.fin 0.33) []
      (hnan _) (fun _ h => absurd h (List.not_mem_nil _))).1
      (show (0 : ℝ) ≤ 0.33 ∧ (0.33 : ℝ) ≤ 1 by norm_num)).2,
   (CalculatorBuilder.WithScoreWeight_validates
      (NewCalculatorBuilder.WithScoreWeight (F64.fin 0.33)) (F64.fin (-2)) []
      (hnan _) (fun _ h => absurd h (List.not_mem_nil _))).2.1
      (show ¬ ((0 : ℝ) ≤ -2 ∧ (-2 : ℝ) ≤ 1) by norm_num),
   (CalculatorBuilder.WithScoreWeight_validates NewCalculatorBuilder (F64.fin 0)
      [BuilderCall.withStrategy StrategyScored, BuilderCall.withScoreWeight (F64.fin 0.33),
       BuilderCall.withScoreWeight (F64.fin (-2))] (hnan _) hc).2.2.1⟩

/-- C14 as stated fails at NaN: `NaN < 0` and `NaN > 1` are both false, so
`WithScoreWeight(NaN)` on a new builder replaces the score weight 0 by NaN,
which is not in `[0, 1]`; the one-call chain `WithScoreWeight(NaN)` builds a
calculator whose score weight is NaN. -/
theorem CalculatorBuilder.WithScoreWeight_accepts_nan :
    ¬ inUnitInterval F64.nan ∧
    NewCalculatorBuilder.Build.scoreWeight = F64.fin 0 ∧
    (NewCalculatorBuilder.WithScoreWeight F64.nan).Build.scoreWeight = F64.nan ∧
    (builderChain [BuilderCall.withScoreWeight F64.nan]).Build.scoreWeight = F64.nan ∧
    ¬ inUnitInterval (builderChain [BuilderCall.withScoreWeight F64.nan]).Build.scoreWeight :=
  ⟨fun h => h, rfl, rfl, rfl, fun h => h⟩

/-- C15: a new match inherits the configuration.  For every chain of builder
calls and every pair of holders, the match `NewMatch` returns from the built
calculator is not finished, its four getters return the calculator's values
and it has the calculator's strategy; the calculator's K and deviation are the
last value passed to `WithKValue` / `WithDeviation` (any value), its score
weight is the last one `WithScoreWeight` accepted, and it ignores draws if and
only if `WithIgnoreDraws` was called; with no call at all they are 32, 400, 0
and false. -/
theorem Calculator.NewMatch_inherits (calls : List BuilderCall) (p1 p2 : Player) :
    ((builderChain calls).Build.NewMatch p1 p2).finished = false ∧
    ((builderChain calls).Build.NewMatch p1 p2).GetKValue = (builderChain calls).Build.k ∧
    ((builderChain calls).Build.NewMatch p1 p2).GetDeviation =
      (builderChain calls).Build.deviation ∧
    ((builderChain calls).Build.NewMatch p1 p2).GetScoreWeight =
      (builderChain calls).Build.scoreWeight ∧
    ((builderChain calls).Build.NewMatch p1 p2).GetIgnoreDraws =
      (builderChain calls).Build.ignoreDraws ∧
    ((builderChain calls).Build.NewMatch p1 p2).strategy =
      (builderChain calls).Build.strategy ∧
    ((builderChain calls).Build.NewMatch p1 p2).PlayerOne = p1 ∧
    ((builderChain calls).Build.NewMatch p1 p2).PlayerTwo = p2 ∧
    (builderChain calls).Build.k = (lastSome kValueArg calls).getD (F64.fin 32) ∧
    (builderChain calls).Build.deviation = (lastSome deviationArg calls).getD (F64.fin 400) ∧
    (builderChain calls).Build.scoreWeight =
      (lastSome acceptedScoreWeightArg calls).getD (F64.fin 0) ∧
    (builderChain calls).Build.ignoreDraws = calls.any isIgnoreDrawsCall ∧
    (builderChain []).Build.k = F64.fin 32 ∧
    (builderChain []).Build.deviation = F64.fin 400 ∧
    (builderChain []).Build.scoreWeight = F64.fin 0 ∧
    (builderChain []).Build.ignoreDraws = false := by
  refine ⟨rfl, rfl, rfl, rfl, rfl, rfl, rfl, rfl, ?_, ?_, ?_, ?_, rfl, rfl, rfl, rfl⟩
  · exact foldl_call_lastSome kValueArg (fun b => b.c.k) CalculatorBuilder.call_k calls
      NewCalculatorBuilder
  · exact foldl_call_lastSome deviationArg (fun b => b.c.deviation)
      CalculatorBuilder.call_deviation calls NewCalculatorBuilder
  · exact foldl_call_lastSome acceptedScoreWeightArg (fun b => b.c.scoreWeight)
      CalculatorBuilder.call_scoreWeight calls NewCalculatorBuilder
  · have h := foldl_call_ignoreDraws calls NewCalculatorBuilder
    simpa [NewCalculatorBuilder] using h

/-! ## `GetOdds` at a zero deviation -/

/-- C16 as stated fails at deviation zero, which `SetDeviation` accepts: on the
match of `TestGetOdds` with the deviation set to 0, both odds are NaN, so
neither `0 < odds` nor `odds < 1` nor `odds1 + odds2 == 1` holds. -/
theorem Match.GetOdds_nan_at_zero_deviation :
    ((NewCalculatorBuilder.Build.NewMatch ⟨F64.fin 1600⟩ ⟨F64.fin 1800⟩).SetDeviation
        (F64.fin 0)).GetDeviation = F64.fin 0 ∧
    ((NewCalculatorBuilder.Build.NewMatch ⟨F64.fin 1600⟩ ⟨F64.fin 1800⟩).SetDeviation
        (F64.fin 0)).GetOdds = ⟨F64.nan, F64.nan⟩ ∧
    F64.lt (F64.fin 0) F64.nan = false ∧ F64.lt F64.nan (F64.fin 1) = false ∧
    F64.eq (F64.nan + F64.nan) (F64.fin 1) = false := by
  have hset : (NewCalculatorBuilder.Build.NewMatch ⟨F64.fin 1600⟩ ⟨F64.fin 1800⟩).SetDeviation
      (F64.fin 0) =
      { (NewCalculatorBuilder.Build.NewMatch ⟨F64.fin 1600⟩ ⟨F64.fin 1800⟩) with
        deviation := F64.fin 0 } := by
    simp [Match.SetDeviation]
  rw [hset]
  refine ⟨rfl, ?_, rfl, rfl, rfl⟩
  have e1 := expected_nan_zero_deviation (show (0 : ℝ) < 1600 by norm_num)
    (show (0 : ℝ) < 1800 by norm_num)
  have e2 := expected_nan_zero_deviation_two (show (0 : ℝ) < 1600 by norm_num)
    (show (0 : ℝ) < 1800 by norm_num)
  simp only [Match.GetOdds, Player.GetElo, Calculator.NewMatch, e1, e2]

/-! ## The score weight at a concrete input -/

/-- With positive scores and player one ahead, `StrategyScored` moves both
ratings by `K * G`, player one up and player two down. -/
theorem StrategyScored_playerOneAhead (r1 r2 K D w : ℝ) (o : MatchOutcome) (s1 s2 : Int)
    (hD : D ≠ 0) (h2 : 0 < s2) (h12 : s2 < s1) :
    StrategyScored (realInput r1 r2 o s1 s2 K D w) =
      (F64.fin (r1 + K * surplus s1 s2 (expectedScore r1 r2 D) w),
       F64.fin (r2 - K * surplus s1 s2 (expectedScore r1 r2 D) w)) := by
  have c1 : s1 ≠ 0 := by omega
  have c2 : s2 ≠ 0 := by omega
  rw [StrategyScored_real r1 r2 K D w o s1 s2 hD (by omega) (by omega)]
  simp only [scoredActual, c1, c2, h12, if_true, if_false, gt_iff_lt]
  congr 2 <;> ring

/-- C21 as stated fails at ratings 1000 and 1000, K 32, deviation 400, with two
results won by player one, 3 to 1 (dominance 3/4) and 2 to 1 (dominance 2/3).
With score weight 0 player one ends at 1012 and at `1000 + 32/3`: the gap is
4/3.  With score weight 1 player one ends at `1000 + 12 * exp(-1/2)` and at
`1000 + 32/3 * exp(-1/2)`: the gap is `4/3 * exp(-1/2)`, about 0.81, strictly
smaller.  The difference between the winner's new ratings goes down, not up,
when the score weight goes from 0 to 1. -/
theorem StrategyScored_weight_dampens_score :
    (StrategyScored (realInput 1000 1000 OutcomeDraw 3 1 32 400 0)).1 = F64.fin 1012 ∧
    (StrategyScored (realInput 1000 1000 OutcomeDraw 2 1 32 400 0)).1 =
      F64.fin (1000 + 32 / 3) ∧
    (StrategyScored (realInput 1000 1000 OutcomeDraw 3 1 32 400 1)).1 =
      F64.fin (1000 + 12 * Real.exp (-(1 / 2))) ∧
    (StrategyScored (realInput 1000 1000 OutcomeDraw 2 1 32 400 1)).1 =
      F64.fin (1000 + 32 / 3 * Real.exp (-(1 / 2))) ∧
    (1000 + 12 * Real.exp (-(1 / 2))) - (1000 + 32 / 3 * Real.exp (-(1 / 2))) <
      (1012 : ℝ) - (1000 + 32 / 3) := by
  have a0 : surplus ((3 : Int) : ℝ) ((1 : Int) : ℝ) (1 / 2) 0 = 3 / 8 := by
    unfold surplus
    norm_num
  have b0 : surplus ((2 : Int) : ℝ) ((1 : Int) : ℝ) (1 / 2) 0 = 1 / 3 := by
    unfold surplus
    norm_num
  have x : (-1 : ℝ) * (1 / 2) = -(1 / 2) := by ring
  have a1 : surplus ((3 : Int) : ℝ) ((1 : Int) : ℝ) (1 / 2) 1 = 3 / 8 * Real.exp (-(1 / 2)) := by
    unfold surplus
    rw [x]
    norm_num
  have b1 : surplus ((2 : Int) : ℝ) ((1 : Int) : ℝ) (1 / 2) 1 = 1 / 3 * Real.exp (-(1 / 2)) := by
    unfold surplus
    rw [x]
    norm_num
  have hx : Real.exp (-(1 / 2 : ℝ)) < 1 := by
    rw [← Real.exp_zero]
    exact Real.exp_lt_exp.mpr (by norm_num)
  refine ⟨?_, ?_, ?_, ?_, ?_⟩
  · rw [StrategyScored_playerOneAhead 1000 1000 32 400 0 OutcomeDraw 3 1 (by norm_num)
      (by decide) (by decide), expectedScore_self, a0]
    norm_num
  · rw [StrategyScored_playerOneAhead 1000 1000 32 400 0 OutcomeDraw 2 1 (by norm_num)
      (by decide) (by decide), expectedScore_self, b0]
    norm_num
  · rw [StrategyScored_playerOneAhead 1000 1000 32 400 1 OutcomeDraw 3 1 (by norm_num)
      (by decide) (by decide), expectedScore_self, a1]
    show F64.fin _ = F64.fin _
    congr 1
    ring
  · rw [StrategyScored_playerOneAhead 1000 1000 32 400 1 OutcomeDraw 2 1 (by norm_num)
      (by decide) (by decide), expectedScore_self, b1]
    show F64.fin _ = F64.fin _
    congr 1
    ring
  · linarith

/-! ## The strategies against the reference formulas, for all `float64` values

The theorems of this part unfold the code and compare it with the reference
formulas written with the same `float64` operations; they use no property of
the arithmetic on real values. -/

theorem F64.fin_neg_one_mul (w : F64) : F64.fin (-1) * w = -w := by
  cases w with
  | fin x =>
    show F64.fin (-1 * x) = F64.fin (-x)
    rw [neg_one_mul]
  | pinf =>
    show F64.infSign (-1) = F64.ninf
    simp [F64.infSign]
  | ninf =>
    show F64.infSign (- -1) = F64.pinf
    simp [F64.infSign]
  | nan => rfl

theorem F64.mul_fin_one (x : F64) : x * F64.fin 1 = x := by
  cases x with
  | fin y =>
    show F64.fin (y * 1) = F64.fin y
    rw [mul_one]
  | pinf =>
    show F64.infSign 1 = F64.pinf
    simp [F64.infSign]
  | ninf =>
    show F64.infSign (-1) = F64.ninf
    simp [F64.infSign]
  | nan => rfl

/-- C3 (amended): for every `r1`, `r2`, `K` and deviation (any `float64`
values) and each of the three outcomes, `StrategyDefault` returns
`r_i + K * (S_i - E_i)`, every operation being the `float64` one, where `S_i` is
1 for the winner, 0 for the loser and 0.5 for each side of a draw and
`E_i = 10^(r_i/Deviation) / (10^(r1/Deviation) + 10^(r2/Deviation))`. -/
theorem StrategyDefault_eq_eloUpdate (input : CalculatorInput)
    (ho : validOutcome input.Outcome) :
    StrategyDefault input =
      eloUpdate input.PlayerOne input.PlayerTwo input.K (actualF64 input.Outcome)
        (expectedF64 input.PlayerOne input.PlayerOne input.PlayerTwo input.Deviation,
         expectedF64 input.PlayerTwo input.PlayerOne input.PlayerTwo input.Deviation) := by
  have h1 : (1.0 : ℝ) = 1 := by norm_num
  have h0 : (0.0 : ℝ) = 0 := by norm_num
  unfold validOutcome at ho
  rcases ho with h | h | h <;>
    simp [StrategyDefault, eloUpdate, actualF64, expectedF64, h, h1, h0, OutcomeDraw,
      OutcomePlayerOneWin, OutcomePlayerTwoWin]

/-- C3 at ratings 1600 and 1800, K 32, deviation 400, player two winning. -/
theorem StrategyDefault_eq_eloUpdate_witness :
    StrategyDefault (realInput 1600 1800 OutcomePlayerTwoWin 0 0 32 400 0) =
      eloUpdate (F64.fin 1600) (F64.fin 1800) (F64.fin 32) (actualF64 OutcomePlayerTwoWin)
        (expectedF64 (F64.fin 1600) (F64.fin 1600) (F64.fin 1800) (F64.fin 400),
         expectedF64 (F64.fin 1800) (F64.fin 1600) (F64.fin 1800) (F64.fin 400)) :=
  StrategyDefault_eq_eloUpdate (realInput 1600 1800 OutcomePlayerTwoWin 0 0 32 400 0)
    (Or.inr (Or.inr rfl))

/-- C3 as stated fails at deviation zero, with ratings 1600 and 1800, K 32 and
player two winning.  The quotients `r / 0` are `+Inf`, so both expected scores
of the code are `Inf / Inf`, NaN, and `StrategyDefault` returns NaN for both
players.  The logistic form gives `1 / (1 + 10^(+Inf)) = 0` for player one and
`1 / (1 + 10^(-Inf)) = 1` for player two, so the update with the logistic form
is (1600, 1800): the two forms of `E_i` are not equal, and the code does not
return the update the logistic form gives. -/
theorem StrategyDefault_not_logistic_at_zero_deviation :
    StrategyDefault (realInput 1600 1800 OutcomePlayerTwoWin 0 0 32 0 0) =
      (F64.nan, F64.nan) ∧
    expectedF64 (F64.fin 1600) (F64.fin 1600) (F64.fin 1800) (F64.fin 0) = F64.nan ∧
    logisticF64 (F64.fin 1600) (F64.fin 1800) (F64.fin 0) = F64.fin 0 ∧
    expectedF64 (F64.fin 1800) (F64.fin 1600) (F64.fin 1800) (F64.fin 0) = F64.nan ∧
    logisticF64 (F64.fin 1800) (F64.fin 1600) (F64.fin 0) = F64.fin 1 ∧
    eloUpdate (F64.fin 1600) (F64.fin 1800) (F64.fin 32) (actualF64 OutcomePlayerTwoWin)
      (logisticF64 (F64.fin 1600) (F64.fin 1800) (F64.fin 0),
       logisticF64 (F64.fin 1800) (F64.fin 1600) (F64.fin 0)) =
      (F64.fin 1600, F64.fin 1800) := by
  have h := StrategyDefault_zero_deviation 1600 1800 32 0 OutcomePlayerTwoWin 0 0
    (by norm_num) (by norm_num)
  have e1 := expected_nan_zero_deviation (show (0 : ℝ) < 1600 by norm_num)
    (show (0 : ℝ) < 1800 by norm_num)
  have e2 := expected_nan_zero_deviation_two (show (0 : ℝ) < 1600 by norm_num)
    (show (0 : ℝ) < 1800 by norm_num)
  have q1 : (F64.fin 1800 - F64.fin 1600) / F64.fin 0 = F64.pinf := by
    rw [F64.fin_sub]
    exact F64.fin_div_zero_of_pos (by norm_num)
  have q2 : (F64.fin 1600 - F64.fin 1800) / F64.fin 0 = F64.ninf := by
    rw [F64.fin_sub]
    exact F64.fin_div_zero_of_neg (by norm_num)
  have l1 : logisticF64 (F64.fin 1600) (F64.fin 1800) (F64.fin 0) = F64.fin 0 := by
    unfold logisticF64
    rw [q1]
    rfl
  have l2 : logisticF64 (F64.fin 1800) (F64.fin 1600) (F64.fin 0) = F64.fin 1 := by
    unfold logisticF64
    rw [q2]
    show F64.fin 1 / F64.fin (1 + 0) = F64.fin 1
    rw [F64.fin_div 1 (by norm_num)]
    norm_num
  refine ⟨h, e1, l1, e2, l2, ?_⟩
  rw [l1, l2]
  simp [eloUpdate, actualF64, OutcomePlayerTwoWin, OutcomePlayerOneWin]

/-- C4 (amended): for every `StrategyScored` input (any `float64` ratings, `K`,
deviation and score weight) whose two scores are nonzero and unequal, with `w`
the side with the higher score and `l` the other, the result is
`r_w + K * (S_w - E_w)` and `r_l + K * (S_l - E_l)`, every operation being the
`float64` one, where `S_w = G + E_w`, `S_l = E_l - G`,
`G = (1 - E_w) * (score_w / (score_w + score_l)) * exp(-ScoreWeight * E_w)` and
`E_w`, `E_l` are the two expected scores; the new ratings are returned in
player-one/player-two order whichever side won. -/
theorem StrategyScored_eq_eloUpdate (input : CalculatorInput)
    (h1 : input.PlayerOneScore ≠ 0) (h2 : input.PlayerTwoScore ≠ 0) :
    (input.PlayerTwoScore < input.PlayerOneScore →
      StrategyScored input =
        eloUpdate input.PlayerOne input.PlayerTwo input.K
          (surplusF64 input.PlayerOneScore input.PlayerTwoScore
              (expectedF64 input.PlayerOne input.PlayerOne input.PlayerTwo input.Deviation)
              input.ScoreWeight +
            expectedF64 input.PlayerOne input.PlayerOne input.PlayerTwo input.Deviation,
           expectedF64 input.PlayerTwo input.PlayerOne input.PlayerTwo input.Deviation -
            surplusF64 input.PlayerOneScore input.PlayerTwoScore
              (expectedF64 input.PlayerOne input.PlayerOne input.PlayerTwo input.Deviation)
              input.ScoreWeight)
          (expectedF64 input.PlayerOne input.PlayerOne input.PlayerTwo input.Deviation,
           expectedF64 input.PlayerTwo input.PlayerOne input.PlayerTwo input.Deviation)) ∧
    (input.PlayerOneScore < input.PlayerTwoScore →
      StrategyScored input =
        eloUpdate input.PlayerOne input.PlayerTwo input.K
          (expectedF64 input.PlayerOne input.PlayerOne input.PlayerTwo input.Deviation -
            surplusF64 input.PlayerTwoScore input.PlayerOneScore
              (expectedF64 input.PlayerTwo input.PlayerOne input.PlayerTwo input.Deviation)
              input.ScoreWeight,
           surplusF64 input.PlayerTwoScore input.PlayerOneScore
              (expectedF64 input.PlayerTwo input.PlayerOne input.PlayerTwo input.Deviation)
              input.ScoreWeight +
            expectedF64 input.PlayerTwo input.PlayerOne input.PlayerTwo input.Deviation)
          (expectedF64 input.PlayerOne input.PlayerOne input.PlayerTwo input.Deviation,
           expectedF64 input.PlayerTwo input.PlayerOne input.PlayerTwo input.Deviation)) := by
  have c1 : (1.0 : ℝ) = 1 := by norm_num
  constructor
  · intro h
    simp only [StrategyScored, determineWeightedSValues, eloUpdate, surplusF64, expectedF64,
      h1, h2, h, gt_iff_lt, if_true, if_false, F64.fin_neg_one_mul, c1]
  · intro h
    have h' : ¬ input.PlayerTwoScore < input.PlayerOneScore := not_lt.mpr (le_of_lt h)
    simp only [StrategyScored, determineWeightedSValues, eloUpdate, surplusF64, expectedF64,
      h1, h2, h, h', gt_iff_lt, if_true, if_false, F64.fin_neg_one_mul, c1, Prod.swap]

/-- C4 on the second match of `TestScoredStrategy`: ratings 800 and 1300,
scores 15 to 20, so player two is the winner. -/
theorem StrategyScored_eq_eloUpdate_witness :
    StrategyScored (realInput 800 1300 OutcomeDraw 15 20 32 400 0) =
      eloUpdate (F64.fin 800) (F64.fin 1300) (F64.fin 32)
        (expectedF64 (F64.fin 800) (F64.fin 800) (F64.fin 1300) (F64.fin 400) -
          surplusF64 20 15
            (expectedF64 (F64.fin 1300) (F64.fin 800) (F64.fin 1300) (F64.fin 400))
            (F64.fin 0),
         surplusF64 20 15
            (expectedF64 (F64.fin 1300) (F64.fin 800) (F64.fin 1300) (F64.fin 400))
            (F64.fin 0) +
          expectedF64 (F64.fin 1300) (F64.fin 800) (F64.fin 1300) (F64.fin 400))
        (expectedF64 (F64.fin 800) (F64.fin 800) (F64.fin 1300) (F64.fin 400),
         expectedF64 (F64.fin 1300) (F64.fin 800) (F64.fin 1300) (F64.fin 400)) :=
  (StrategyScored_eq_eloUpdate (realInput 800 1300 OutcomeDraw 15 20 32 400 0)
    (by decide) (by decide)).2 (by decide)

/-- C4 as stated fails at deviation zero, with ratings 1200 and -1000, scores 8
to 12 (player two wins), K 32 and score weight 0.33.  Player one's quotient
`r / 0` is `+Inf` and player two's is `-Inf`, so the winner's expected score is
`0 / Inf = 0` and the loser's is `Inf / Inf`, NaN.  `G`, computed from the
winner, is a real number, so `r_l - K * G` and `r_w + K * G` are real numbers;
but the code computes the loser's rating from `S_l - E_l` with `E_l` NaN and
returns NaN for player one. -/
theorem StrategyScored_loser_nan_at_zero_deviation :
    (StrategyScored (realInput 1200 (-1000) OutcomeDraw 8 12 32 0 0.33)).1 = F64.nan ∧
    F64.isFinite (surplusUpdate (realInput 1200 (-1000) OutcomeDraw 8 12 32 0 0.33)).1 ∧
    F64.isFinite (surplusUpdate (realInput 1200 (-1000) OutcomeDraw 8 12 32 0 0.33)).2 ∧
    StrategyScored (realInput 1200 (-1000) OutcomeDraw 8 12 32 0 0.33) ≠
      surplusUpdate (realInput 1200 (-1000) OutcomeDraw 8 12 32 0 0.33) := by
  have e := expected_zero_deviation_mixed (show (0 : ℝ) < 1200 by norm_num)
    (show (-1000 : ℝ) < 0 by norm_num)
  have hc : (StrategyScored (realInput 1200 (-1000) OutcomeDraw 8 12 32 0 0.33)).1 =
      F64.nan := by
    simp only [StrategyScored, realInput, e.1, e.2, F64.sub_nan, F64.fin_mul_nan,
      F64.fin_add_nan]
  have hsum : (((12 : Int) : ℝ) + ((8 : Int) : ℝ)) ≠ 0 := by norm_num
  have hu : ∃ x y : ℝ, surplusUpdate (realInput 1200 (-1000) OutcomeDraw 8 12 32 0 0.33) =
      (F64.fin x, F64.fin y) := by
    refine ⟨1200 - 32 * ((1 - 0) * ((12 : Int) / (((12 : Int) : ℝ) + ((8 : Int) : ℝ))) *
      Real.exp (-0.33 * 0)), -1000 + 32 * ((1 - 0) * ((12 : Int) /
      (((12 : Int) : ℝ) + ((8 : Int) : ℝ))) * Real.exp (-0.33 * 0)), ?_⟩
    have g : ¬ ((8 : Int) > 12) := by decide
    simp only [surplusUpdate, realInput, g, if_false, expectedF64, e.2, surplusF64,
      F64.ofInt_eq, F64.fin_add, F64.fin_div _ hsum, F64.fin_sub, F64.neg_fin, F64.fin_mul,
      F64.exp_fin]
  obtain ⟨x, y, hxy⟩ := hu
  refine ⟨hc, ?_, ?_, ?_⟩
  · rw [hxy]
    trivial
  · rw [hxy]
    trivial
  · intro k
    rw [k, hxy] at hc
    cases hc

/-- C16 (amended): for every match (any `float64` ratings and deviation),
`GetOdds` returns for each side the win probability
`10^(r_self/deviation) / (10^(r1/deviation) + 10^(r2/deviation))`, the ratio
form of the logistic formula, computed with the `float64` operations from the
players' current ratings and the match's current deviation; these are the
expected scores `StrategyDefault` uses at those ratings and that deviation.
`GetOdds` is a function of the match that returns only the odds: it has no
state to change. -/
theorem Match.GetOdds_eq_expected (m : Match) (o : MatchOutcome) (s1 s2 : Int) (K w : F64)
    (ho : validOutcome o) :
    m.GetOdds =
      ⟨expectedF64 m.PlayerOne.GetElo m.PlayerOne.GetElo m.PlayerTwo.GetElo m.GetDeviation,
       expectedF64 m.PlayerTwo.GetElo m.PlayerOne.GetElo m.PlayerTwo.GetElo m.GetDeviation⟩ ∧
    StrategyDefault ⟨m.PlayerOne.GetElo, m.PlayerTwo.GetElo, o, s1, s2, K, m.GetDeviation, w⟩ =
      eloUpdate m.PlayerOne.GetElo m.PlayerTwo.GetElo K (actualF64 o)
        (m.GetOdds.PlayerOneOdds, m.GetOdds.PlayerTwoOdds) := by
  have h1 : (1.0 : ℝ) = 1 := by norm_num
  have h0 : (0.0 : ℝ) = 0 := by norm_num
  refine ⟨rfl, ?_⟩
  unfold validOutcome at ho
  rcases ho with h | h | h <;>
    simp [StrategyDefault, Match.GetOdds, Match.GetDeviation, eloUpdate, actualF64, h, h1, h0,
      OutcomeDraw, OutcomePlayerOneWin, OutcomePlayerTwoWin]

/-- C16 on the match of `TestGetOdds`: default calculator, ratings 1600 and
1800, deviation 400. -/
theorem Match.GetOdds_eq_expected_witness :
    (NewCalculatorBuilder.Build.NewMatch ⟨F64.fin 1600⟩ ⟨F64.fin 1800⟩).GetOdds =
      ⟨expectedF64 (F64.fin 1600) (F64.fin 1600) (F64.fin 1800) (F64.fin 400),
       expectedF64 (F64.fin 1800) (F64.fin 1600) (F64.fin 1800) (F64.fin 400)⟩ :=
  (Match.GetOdds_eq_expected
    (NewCalculatorBuilder.Build.NewMatch ⟨F64.fin 1600⟩ ⟨F64.fin 1800⟩)
    OutcomePlayerOneWin 0 0 (F64.fin 32) (F64.fin 0) (Or.inr (Or.inl rfl))).1

/-- C21 (amended): the score weight enters `determineWeightedSValues` only as
the damping factor `exp(-ScoreWeight * E_w)` that multiplies the surplus
`(1 - E_w) * (winnerScore / (winnerScore + loserScore))`, every operation being
the `float64` one; at score weight 0 and a real `E_w` the factor is
`exp(0) = 1`, so the surplus is not damped. -/
theorem determineWeightedSValues_damping (ws ls ew el w : F64) (e : ℝ) :
    determineWeightedSValues ws ls ew el w =
      ((F64.fin 1 - ew) * (ws / (ws + ls)) * F64.exp (-w * ew) + ew,
       el - (F64.fin 1 - ew) * (ws / (ws + ls)) * F64.exp (-w * ew)) ∧
    determineWeightedSValues ws ls (F64.fin e) el (F64.fin 0) =
      ((F64.fin 1 - F64.fin e) * (ws / (ws + ls)) + F64.fin e,
       el - (F64.fin 1 - F64.fin e) * (ws / (ws + ls))) := by
  have c1 : (1.0 : ℝ) = 1 := by norm_num
  have x : F64.exp (-F64.fin 0 * F64.fin e) = F64.fin 1 := by
    simp
  constructor
  · simp only [determineWeightedSValues, F64.fin_neg_one_mul, c1]
  · simp only [determineWeightedSValues, F64.fin_neg_one_mul, c1, x, F64.mul_fin_one]

/-- C22 (amended): `determineWeightedSValues` is reached only when both scores
are nonzero and unequal.  For every `StrategyScored` input (any `float64`
values): with player one's score zero it returns what `StrategyDefault` returns
for a win of player two, with only player two's score zero what it returns for
a win of player one, with equal nonzero scores what it returns for a draw; with
nonzero unequal scores its actual scores are those `determineWeightedSValues`
returns when called with the higher score as `winnerScore`.  With non-negative
scores the two integers passed then satisfy `winnerScore > loserScore >= 1`,
so `winnerScore + loserScore >= 3`. -/
theorem StrategyScored_reaches_weighted (input : CalculatorInput) :
    (input.PlayerOneScore = 0 →
      StrategyScored input = StrategyDefault { input with Outcome := OutcomePlayerTwoWin }) ∧
    (input.PlayerOneScore ≠ 0 → input.PlayerTwoScore = 0 →
      StrategyScored input = StrategyDefault { input with Outcome := OutcomePlayerOneWin }) ∧
    (input.PlayerOneScore ≠ 0 → input.PlayerOneScore = input.PlayerTwoScore →
      StrategyScored input = StrategyDefault { input with Outcome := OutcomeDraw }) ∧
    (input.PlayerOneScore ≠ 0 → input.PlayerTwoScore ≠ 0 →
      input.PlayerTwoScore < input.PlayerOneScore →
      StrategyScored input =
        eloUpdate input.PlayerOne input.PlayerTwo input.K
          (determineWeightedSValues (F64.ofInt input.PlayerOneScore)
            (F64.ofInt input.PlayerTwoScore)
            (expectedF64 input.PlayerOne input.PlayerOne input.PlayerTwo input.Deviation)
            (expectedF64 input.PlayerTwo input.PlayerOne input.PlayerTwo input.Deviation)
            input.ScoreWeight)
          (expectedF64 input.PlayerOne input.PlayerOne input.PlayerTwo input.Deviation,
           expectedF64 input.PlayerTwo input.PlayerOne input.PlayerTwo input.Deviation)) ∧
    (input.PlayerOneScore ≠ 0 → input.PlayerTwoScore ≠ 0 →
      input.PlayerOneScore < input.PlayerTwoScore →
      StrategyScored input =
        eloUpdate input.PlayerOne input.PlayerTwo input.K
          (Prod.swap (determineWeightedSValues (F64.ofInt input.PlayerTwoScore)
            (F64.ofInt input.PlayerOneScore)
            (expectedF64 input.PlayerTwo input.PlayerOne input.PlayerTwo input.Deviation)
            (expectedF64 input.PlayerOne input.PlayerOne input.PlayerTwo input.Deviation)
            input.ScoreWeight))
          (expectedF64 input.PlayerOne input.PlayerOne input.PlayerTwo input.Deviation,
           expectedF64 input.PlayerTwo input.PlayerOne input.PlayerTwo input.Deviation)) ∧
    (0 ≤ input.PlayerOneScore → 0 ≤ input.PlayerTwoScore →
      input.PlayerOneScore ≠ 0 → input.PlayerTwoScore ≠ 0 →
      input.PlayerOneScore ≠ input.PlayerTwoScore →
      1 ≤ min input.PlayerOneScore input.PlayerTwoScore ∧
      min input.PlayerOneScore input.PlayerTwoScore <
        max input.PlayerOneScore input.PlayerTwoScore ∧
      3 ≤ max input.PlayerOneScore input.PlayerTwoScore +
        min input.PlayerOneScore input.PlayerTwoScore) := by
  have c1 : (1.0 : ℝ) = 1 := by norm_num
  have c0 : (0.0 : ℝ) = 0 := by norm_num
  refine ⟨?_, ?_, ?_, ?_, ?_, ?_⟩
  · intro h
    simp [StrategyScored, StrategyDefault, h, c1, c0, OutcomePlayerOneWin, OutcomePlayerTwoWin]
  · intro h1 h2
    simp [StrategyScored, StrategyDefault, h1, h2, c1, c0, OutcomePlayerOneWin]
  · intro h1 h
    have h2 : input.PlayerTwoScore ≠ 0 := fun k => h1 (h.trans k)
    simp [StrategyScored, StrategyDefault, h1, h2, h, OutcomeDraw, OutcomePlayerOneWin,
      OutcomePlayerTwoWin]
  · intro h1 h2 h
    simp only [StrategyScored, eloUpdate, expectedF64, h1, h2, h, gt_iff_lt, if_true,
      if_false]
  · intro h1 h2 h
    have h' : ¬ input.PlayerTwoScore < input.PlayerOneScore := not_lt.mpr (le_of_lt h)
    simp only [StrategyScored, eloUpdate, expectedF64, h1, h2, h, h', gt_iff_lt, if_true,
      if_false]
  · intro p1 p2 h1 h2 h
    omega

/-- C22 on the second match of `TestScoredStrategy`: scores 15 to 20, so
`determineWeightedSValues` is called with 20 as `winnerScore` and 15 as
`loserScore`. -/
theorem StrategyScored_reaches_weighted_witness :
    StrategyScored (realInput 800 1300 OutcomeDraw 15 20 32 400 0) =
      eloUpdate (F64.fin 800) (F64.fin 1300) (F64.fin 32)
        (Prod.swap (determineWeightedSValues (F64.ofInt 20) (F64.ofInt 15)
          (expectedF64 (F64.fin 1300) (F64.fin 800) (F64.fin 1300) (F64.fin 400))
          (expectedF64 (F64.fin 800) (F64.fin 800) (F64.fin 1300) (F64.fin 400))
          (F64.fin 0)))
        (expectedF64 (F64.fin 800) (F64.fin 800) (F64.fin 1300) (F64.fin 400),
         expectedF64 (F64.fin 1300) (F64.fin 800) (F64.fin 1300) (F64.fin 400)) ∧
    (1 : Int) ≤ min 15 20 ∧ min (15 : Int) 20 < max 15 20 ∧ (3 : Int) ≤ max 15 20 + min 15 20 :=
  have h := StrategyScored_reaches_weighted (realInput 800 1300 OutcomeDraw 15 20 32 400 0)
  ⟨h.2.2.2.2.1 (by decide) (by decide) (by decide),
   h.2.2.2.2.2 (by decide) (by decide) (by decide) (by decide) (by decide)⟩

/-- C22 as stated fails at deviation zero: with ratings -1200 and -1000 both
quotients `r / 0` are `-Inf`, both powers are 0, and the probability
denominator `R1 + R2` is 0, a zero divisor that is not `Deviation`; it is not
strictly positive, and `StrategyScored` (scores 12 to 8, K 32) divides 0 by 0
and returns NaN for both players. -/
theorem StrategyScored_zero_denominator_at_zero_deviation :
    F64.pow10 (F64.fin (-1200) / F64.fin 0) + F64.pow10 (F64.fin (-1000) / F64.fin 0) =
      F64.fin 0 ∧
    F64.lt (F64.fin 0)
      (F64.pow10 (F64.fin (-1200) / F64.fin 0) + F64.pow10 (F64.fin (-1000) / F64.fin 0)) =
      false ∧
    StrategyScored (realInput (-1200) (-1000) OutcomeDraw 12 8 32 0 0.33) =
      (F64.nan, F64.nan) := by
  have q1 := F64.fin_div_zero_of_neg (show (-1200 : ℝ) < 0 by norm_num)
  have q2 := F64.fin_div_zero_of_neg (show (-1000 : ℝ) < 0 by norm_num)
  have hden : F64.pow10 (F64.fin (-1200) / F64.fin 0) +
      F64.pow10 (F64.fin (-1000) / F64.fin 0) = F64.fin 0 := by
    simp only [q1, q2, F64.pow10, F64.fin_add, add_zero]
  have hE : F64.fin 0 / F64.fin 0 = F64.nan := by
    show F64.div (F64.fin 0) (F64.fin 0) = F64.nan
    simp [F64.div, F64.infSign]
  refine ⟨hden, ?_, ?_⟩
  · rw [hden]
    simp
  · have hden2 : F64.pow10 F64.ninf + F64.pow10 F64.ninf = F64.fin 0 := by
      simp only [F64.pow10, F64.fin_add, add_zero]
    simp only [StrategyScored, realInput, q1, q2, hden2]
    simp only [F64.pow10, hE, F64.sub_nan, F64.fin_mul_nan, F64.fin_add_nan]

/-- C23 (amended): for a match whose strategy is `StrategyScored` (any
`float64` ratings, K and deviation), the two gain queries are asymmetric.  Both
pass the scores 0 and 0, and `StrategyScored` tests `PlayerOneScore == 0`
first, so both are answered as for a win of player two: `PlayerOneGain`
returns `(r1 + K * (0 - E1)) - r1` and `PlayerTwoGain` returns
`(r2 + K * (1 - E2)) - r2`, every operation being the `float64` one, where `E1`
and `E2` are the odds `GetOdds` returns; these are the changes `StrategyDefault`
gives the two players for `OutcomePlayerTwoWin`. -/
theorem Match.gains_scored_player_two_win (m : Match) (hs : m.strategy = StrategyScored) :
    m.PlayerOneGain =
      (m.PlayerOne.GetElo + m.GetKValue * (F64.fin 0 - m.GetOdds.PlayerOneOdds)) -
        m.PlayerOne.GetElo ∧
    m.PlayerTwoGain =
      (m.PlayerTwo.GetElo + m.GetKValue * (F64.fin 1 - m.GetOdds.PlayerTwoOdds)) -
        m.PlayerTwo.GetElo ∧
    m.PlayerOneGain =
      (StrategyDefault ⟨m.PlayerOne.GetElo, m.PlayerTwo.GetElo, OutcomePlayerTwoWin, 0, 0,
        m.GetKValue, m.GetDeviation, F64.fin 0⟩).1 - m.PlayerOne.GetElo ∧
    m.PlayerTwoGain =
      (StrategyDefault ⟨m.PlayerOne.GetElo, m.PlayerTwo.GetElo, OutcomePlayerTwoWin, 0, 0,
        m.GetKValue, m.GetDeviation, F64.fin 0⟩).2 - m.PlayerTwo.GetElo := by
  have c1 : (1.0 : ℝ) = 1 := by norm_num
  have c0 : (0.0 : ℝ) = 0 := by norm_num
  refine ⟨?_, ?_, ?_, ?_⟩
  · simp [Match.PlayerOneGain, Match.GetOdds, Match.GetKValue, hs, StrategyScored]
  · simp [Match.PlayerTwoGain, Match.GetOdds, Match.GetKValue, hs, StrategyScored]
  · simp [Match.PlayerOneGain, Match.GetKValue, Match.GetDeviation, hs, StrategyScored,
      StrategyDefault, c0, OutcomePlayerOneWin, OutcomePlayerTwoWin]
  · simp [Match.PlayerTwoGain, Match.GetKValue, Match.GetDeviation, hs, StrategyScored,
      StrategyDefault, c1, OutcomePlayerOneWin, OutcomePlayerTwoWin]

/-- C23 on a scored match with ratings 1600 and 1800, K 32, deviation 400. -/
theorem Match.gains_scored_player_two_win_witness :
    ((NewCalculatorBuilder.WithStrategy StrategyScored).Build.NewMatch ⟨F64.fin 1600⟩
        ⟨F64.fin 1800⟩).PlayerOneGain =
      (StrategyDefault ⟨F64.fin 1600, F64.fin 1800, OutcomePlayerTwoWin, 0, 0, F64.fin 32,
        F64.fin 400, F64.fin 0⟩).1 - F64.fin 1600 ∧
    ((NewCalculatorBuilder.WithStrategy StrategyScored).Build.NewMatch ⟨F64.fin 1600⟩
        ⟨F64.fin 1800⟩).PlayerTwoGain =
      (StrategyDefault ⟨F64.fin 1600, F64.fin 1800, OutcomePlayerTwoWin, 0, 0, F64.fin 32,
        F64.fin 400, F64.fin 0⟩).2 - F64.fin 1800 :=
  (Match.gains_scored_player_two_win
    ((NewCalculatorBuilder.WithStrategy StrategyScored).Build.NewMatch ⟨F64.fin 1600⟩
      ⟨F64.fin 1800⟩) rfl).2.2

/-- C23 as stated fails on a scored match with K 32 and deviation 400 whose
player two holds the rating `+Inf` (player one holds 1600): `R2` is `+Inf`, so
`E1 = R1 / Inf = 0` and `E2 = Inf / Inf` is NaN; `PlayerOneGain` returns
`(1600 + 32 * (0 - 0)) - 1600 = 0`, which is not strictly negative, and
`PlayerTwoGain` returns NaN, which is not strictly positive. -/
theorem Match.gains_scored_not_strict :
    F64.lt (F64.fin 0) (F64.fin 32) = true ∧ F64.lt (F64.fin 0) (F64.fin 400) = true ∧
    ((NewCalculatorBuilder.WithStrategy StrategyScored).Build.NewMatch ⟨F64.fin 1600⟩
        ⟨F64.pinf⟩).PlayerOneGain = F64.fin 0 ∧
    F64.lt (F64.fin 0) (F64.fin 0) = false ∧
    ((NewCalculatorBuilder.WithStrategy StrategyScored).Build.NewMatch ⟨F64.fin 1600⟩
        ⟨F64.pinf⟩).PlayerTwoGain = F64.nan ∧
    F64.lt (F64.fin 0) F64.nan = false := by
  have q1 : F64.fin 1600 / F64.fin 400 = F64.fin (1600 / 400) :=
    F64.fin_div 1600 (by norm_num)
  have q2 : F64.pinf / F64.fin 400 = F64.pinf := by
    show F64.div F64.pinf (F64.fin 400) = F64.pinf
    simp [F64.div]
  have e1 : F64.pow10 (F64.fin 1600 / F64.fin 400) /
      (F64.pow10 (F64.fin 1600 / F64.fin 400) + F64.pow10 (F64.pinf / F64.fin 400)) =
      F64.fin 0 := by
    rw [q1, q2]
    rfl
  have e2 : F64.pow10 (F64.pinf / F64.fin 400) /
      (F64.pow10 (F64.fin 1600 / F64.fin 400) + F64.pow10 (F64.pinf / F64.fin 400)) =
      F64.nan := by
    rw [q1, q2]
    rfl
  refine ⟨by simp, by simp, ?_, by simp, ?_, rfl⟩
  · simp only [Match.PlayerOneGain, Calculator.NewMatch, CalculatorBuilder.Build,
      CalculatorBuilder.WithStrategy, NewCalculatorBuilder, Player.GetElo, StrategyScored,
      if_true, e1, F64.fin_sub, F64.fin_mul, F64.fin_add]
    norm_num
  · simp only [Match.PlayerTwoGain, Calculator.NewMatch, CalculatorBuilder.Build,
      CalculatorBuilder.WithStrategy, NewCalculatorBuilder, Player.GetElo, StrategyScored,
      if_true, e2, F64.sub_nan, F64.fin_mul_nan]
    rfl
